import Mathlib

/-!
# mobile-core: App lifecycle, API-key registry, permission check and access gate

A shallow embedding of `pkg/openshift/authChecker.go`, `pkg/web/middleware/access.go`,
`pkg/data/mobileApp.go` and `pkg/mobile/app/service.go`, followed by theorems
about their behaviour.

Conventions of the embedding:
* a Go `error` value is a `GoError`; a Go `(T, error)` result is a `Result T`,
  with a third alternative for a run-time panic (write to a nil map);
* a Go `map[string]V` is an `Option (List (String × V))`: `none` is the nil map,
  reads of a nil map give the zero value, writes to it panic;
* a Go `[]byte` is an `Option String`: `none` is the nil slice, `some ""` the
  empty non-nil slice;
* collaborators outside the repository (the HTTP client, `net/url`,
  `encoding/json`, the clock, the UUID generator) are parameters.
-/

namespace MobileCore

/-! ## Go values -/

/-- Go `error` values that occur in the embedded code. `new` is `errors.New`,
`wrap` is `errors.Wrap`, `authentication` is `*openshift.AuthenticationError`
(fields `Message` and `StatusCode`), and `notFound` / `alreadyExists` are the
object store's status errors. -/
inductive GoError where
  | new (msg : String)
  | wrap (cause : GoError) (msg : String)
  | authentication (message : String) (statusCode : Int)
  | notFound (name : String)
  | alreadyExists (name : String)
  deriving DecidableEq, Repr

/-- The `Error()` string of an error value. -/
def GoError.Error : GoError → String
  | .new msg => msg
  | .wrap cause msg => msg ++ ": " ++ cause.Error
  | .authentication message _ => message
  | .notFound name => "\"" ++ name ++ "\" not found"
  | .alreadyExists name => "\"" ++ name ++ "\" already exists"

/-- Result of a Go call returning `(T, error)`; `panic` is a run-time panic,
which is not an error value and propagates through every caller. -/
inductive Result (α : Type) where
  | ok (v : α)
  | err (e : GoError)
  | panic (msg : String)
  deriving DecidableEq, Repr

deriving instance DecidableEq for Except

/-- Entries of a non-nil Go map with string keys (keys are unique). -/
abbrev Entries (V : Type) := List (String × V)

/-- Lookup in the entries of a map. -/
def Entries.get {V : Type} (m : Entries V) (k : String) : Option V :=
  match m with
  | [] => none
  | (k', v) :: rest => if k' = k then some v else Entries.get rest k

/-- Go `delete(m, k)` on the entries of a map. -/
def Entries.delete {V : Type} (m : Entries V) (k : String) : Entries V :=
  m.filter (fun e => decide (e.1 ≠ k))

/-- Go `m[k] = v` on the entries of a map. -/
def Entries.set {V : Type} (m : Entries V) (k : String) (v : V) : Entries V :=
  (k, v) :: Entries.delete m k

/-- A Go `map[string]string`; `none` is the nil map. -/
abbrev StringMap := Option (Entries String)

/-- Go `m[k]` on a `map[string]string`: the zero value `""` when `k` is absent
or the map is nil. -/
def StringMap.index (m : StringMap) (k : String) : String :=
  match m with
  | none => ""
  | some es => (Entries.get es k).getD ""

/-- Go `m[k] = v` on a `map[string]string`: panics on the nil map. -/
def StringMap.assign (m : StringMap) (k v : String) : Result StringMap :=
  match m with
  | none => .panic "assignment to entry in nil map"
  | some es => .ok (some (Entries.set es k v))

/-- Go `delete(m, k)` on a `map[string]string`: a no-op on the nil map. -/
def StringMap.delete (m : StringMap) (k : String) : StringMap :=
  match m with
  | none => none
  | some es => some (Entries.delete es k)

/-- A Go `[]byte`; `none` is the nil slice. -/
abbrev ByteSlice := Option String

/-! ## pkg/openshift/authChecker.go -/

set_option linter.dupNamespace false in
/-- Modelled from the spec: `mobile.User` is declared outside the given sources;
the spec says a User "carries a username and group memberships". -/
structure User where
  User : String
  Groups : List String
  deriving DecidableEq, Repr

/-- Modelled from the spec: `User.InAnyGroup` is defined outside the given
sources; the spec says the decision is allowed "if the caller belongs to any
listed group". -/
def User.InAnyGroup (u : MobileCore.User) (groups : List String) : Bool :=
  u.Groups.any (fun g => groups.any (fun cg => decide (cg = g)))

/-- The Go struct `authCheckJsonPayload`. -/
structure authCheckJsonPayload where
  Verb : String
  Resource : String
  deriving DecidableEq, Repr

/-- The Go struct `authCheckResponse`. -/
structure authCheckResponse where
  Users : List String
  Groups : List String
  deriving DecidableEq, Repr

/-- An outgoing `*http.Request` as `Check` builds it. -/
structure HTTPRequest where
  Method : String
  URL : String
  Header : List (String × String)
  Body : String
  deriving DecidableEq, Repr

/-- An `*http.Response`: the status code and what reading the body yields. -/
structure HTTPResponse where
  StatusCode : Int
  Body : Except GoError String

/-- The collaborators of `AuthChecker.Check` that live outside the repository:
`net/url`, `path`, `encoding/json`, `net/http` and `strconv`. -/
structure CheckEnv where
  urlParse : String → Except GoError String
  pathJoin : String → String
  withPath : String → String → String
  jsonMarshal : authCheckJsonPayload → Except GoError String
  newRequest : String → String → String → Except GoError HTTPRequest
  jsonUnmarshal : String → Except GoError authCheckResponse
  itoa : Int → String

/-- The Go struct `AuthChecker`; `UserRepo` is represented by what its
`GetUser()` returns. -/
structure AuthChecker where
  Host : String
  Token : String
  SkipCertCheck : Bool
  UserRepo : Except GoError User

def StatusCreated : Int := 201
def StatusUnauthorized : Int := 401
def StatusForbidden : Int := 403
def StatusInternalServerError : Int := 500

/-- `req.Header.Set(k, v)`. -/
def headerSet (h : List (String × String)) (k v : String) : List (String × String) :=
  (k, v) :: h.filter (fun e => decide (e.1 ≠ k))

/-- `AuthChecker.Check`: the Go `(bool, error)` result is a pair whose second
component is `none` for a nil error. `client` is `ExternalHTTPRequester.Do`. -/
def AuthChecker.Check (env : CheckEnv) (ac : AuthChecker) (_resource ns : String)
    (client : HTTPRequest → Except GoError HTTPResponse) : Bool × Option GoError :=
  match ac.UserRepo with
  | .error err => (false, some (.wrap err "openshift.ac.Check -> failed to retrieve user details"))
  | .ok user =>
  match env.urlParse ac.Host with
  | .error err => (false, some (.wrap err
      "openshift.ac.Check -> failed to parse openshift host when attempting to check authorization"))
  | .ok u =>
  let u := env.withPath u
    (env.pathJoin ("/oapi/v1/namespaces/" ++ ns ++ "/localresourceaccessreviews"))
  let payload : authCheckJsonPayload := { Verb := "update", Resource := "deploymentconfigs" }
  match env.jsonMarshal payload with
  | .error err => (false, some (.wrap err
      "openshift.ac.Check -> failed to build payload for check authorization"))
  | .ok bytePayload =>
  match env.newRequest "POST" u bytePayload with
  | .error err => (false, some (.wrap err
      "openshift.ac.Check -> failed to build request to check authorization"))
  | .ok req =>
  let req := { req with Header := headerSet req.Header "authorization" ("bearer " ++ ac.Token) }
  let req := { req with Header := headerSet req.Header "Content-Type" "Application/JSON" }
  match client req with
  | .error err => (false, some (.wrap err
      "openshift.ac.Check -> failed to make request to check authorization"))
  | .ok resp =>
  if resp.StatusCode = StatusForbidden then
    (false, none)
  else if resp.StatusCode ≠ StatusCreated then
    if resp.StatusCode = StatusUnauthorized ∨ resp.StatusCode = StatusForbidden then
      (false, some (.authentication
        ("openshift.ac.Check -> (" ++ env.itoa resp.StatusCode ++ ") access was denied")
        resp.StatusCode))
    else
      (false, some (.new
        ("openshift.ac.Check -> unexpected response code from openshift " ++
          env.itoa resp.StatusCode)))
  else
  match resp.Body with
  | .error err => (false, some (.wrap err
      "openshift.ac.Check -> failed to read the response body after reading user"))
  | .ok data =>
  match env.jsonUnmarshal data with
  | .error err => (false, some (.wrap err
      "openshift.ac.Check -> error decoding response to auth check"))
  | .ok res =>
  if res.Users.any (fun u => decide (u = user.User)) then
    (true, none)
  else
    (user.InAnyGroup res.Groups, none)

/-- The JSON text of the access-review payload. -/
def payloadJSON : String :=
  "\x7b\"verb\":\"update\",\"resource\":\"deploymentconfigs\"\x7d"

/-- A reference environment for `Check`: every library call succeeds and the
response body `"alice-dev"` decodes to users `["alice"]`, groups `["dev"]`. -/
def exampleEnv : CheckEnv where
  urlParse := fun h => .ok h
  pathJoin := fun p => p
  withPath := fun u p => u ++ p
  jsonMarshal := fun _ => .ok payloadJSON
  newRequest := fun m u b => .ok { Method := m, URL := u, Header := [], Body := b }
  jsonUnmarshal := fun s =>
    if s = "alice-dev" then .ok { Users := ["alice"], Groups := ["dev"] }
    else .error (.new "unexpected end of JSON input")
  itoa := fun n => toString n

/-- An `AuthChecker` whose user repository yields the given user. -/
def exampleChecker (u : User) : AuthChecker :=
  { Host := "https://cluster", Token := "t0", SkipCertCheck := true, UserRepo := .ok u }

/-! ## pkg/web/middleware/access.go -/

/-- Regular expressions of Go's `regexp` package, restricted to the operators
the exemption patterns use (literal characters, `.` and `*`) and closed under
derivatives (`empty`, `alt`). -/
inductive Regex where
  | empty
  | eps
  | char (c : Char)
  | anyNotNL
  | seq (a b : Regex)
  | alt (a b : Regex)
  | star (a : Regex)
  deriving DecidableEq, Repr

/-- Whether the expression matches the empty string. -/
def Regex.nullable : Regex → Bool
  | .empty => false
  | .eps => true
  | .char _ => false
  | .anyNotNL => false
  | .seq a b => a.nullable && b.nullable
  | .alt a b => a.nullable || b.nullable
  | .star _ => true

/-- Brzozowski derivative: the expression matching `w` whenever the original
matches `c :: w`. The dot matches every character except a newline (Go's
default, without the `s` flag). -/
def Regex.deriv : Regex → Char → Regex
  | .empty, _ => .empty
  | .eps, _ => .empty
  | .char d, c => if d = c then .eps else .empty
  | .anyNotNL, c => if c = '\n' then .empty else .eps
  | .seq a b, c =>
      if a.nullable then .alt (.seq (a.deriv c) b) (b.deriv c) else .seq (a.deriv c) b
  | .alt a b, c => .alt (a.deriv c) (b.deriv c)
  | .star a, c => .seq (a.deriv c) (.star a)

/-- Whether the whole input is matched by the expression. -/
def Regex.matchesAll (r : Regex) : List Char → Bool
  | [] => r.nullable
  | c :: cs => (r.deriv c).matchesAll cs

/-- Whether some prefix of the input is matched by the expression. -/
def Regex.matchesPrefix (r : Regex) : List Char → Bool
  | [] => r.nullable
  | c :: cs => r.nullable || (r.deriv c).matchesPrefix cs

/-- Unanchored search, `(*Regexp).Match`: "reports whether the byte slice
contains any match of the regular expression". -/
def Regex.Match (r : Regex) : List Char → Bool
  | [] => r.nullable
  | c :: cs => r.matchesPrefix (c :: cs) || r.Match cs

/-- One atom of a pattern. -/
def Regex.atom (c : Char) : Regex :=
  if c = '.' then .anyNotNL else .char c

/-- The atoms of a pattern, left to right, a postfix `*` applying to the atom
before it. -/
def Regex.atoms : List Char → List Regex
  | [] => []
  | [c] => [Regex.atom c]
  | c :: d :: rest =>
      if d = '*' then .star (Regex.atom c) :: Regex.atoms rest
      else Regex.atom c :: Regex.atoms (d :: rest)

/-- `regexp.MustCompile` on patterns made of literals, `.` and `*`. -/
def MustCompile (pattern : String) : Regex :=
  (Regex.atoms pattern.toList).foldr Regex.seq Regex.eps

/-- `buildIgnoreList`. -/
def buildIgnoreList : List Regex :=
  let cfg := MustCompile "GET:/config.js"
  let sdk := MustCompile "GET:/sdk/mobileapp/.*/config"
  let ping := MustCompile "GET:/sys/info/ping"
  let health := MustCompile "GET:/sys/info/health"
  let metrics := MustCompile "GET:/metrics"
  let download := MustCompile "GET:/build/.*/download"
  [download, cfg, sdk, ping, health, metrics]

/-- The package variable `ingnoreList`. -/
def ingnoreList : List Regex := buildIgnoreList

/-- `shouldIgnore`. -/
def shouldIgnore (path : String) : Bool :=
  ingnoreList.any (fun i => i.Match path.toList)

/-- Modelled from the spec: `openshift.IsAuthenticationError` is defined outside
the given sources; the spec distinguishes "AuthenticationError" from "any other
error", so the test holds exactly for an error value that is an
`*AuthenticationError`. -/
def IsAuthenticationError : GoError → Bool
  | .authentication _ _ => true
  | _ => false

/-- The part of an incoming `*http.Request` that `Handle` reads. -/
structure Request where
  Method : String
  Path : String
  Header : List (String × String)
  deriving DecidableEq, Repr

/-- What `Handle` does to its surroundings, in order: a call of the user-check
function, a line logged at error level, a response written by `http.Error`, a
call of the next handler. -/
inductive Effect where
  | userCheck (host token : String) (skipTLS : Bool)
  | logError (msg : String)
  | httpError (body : String) (code : Int)
  | next
  deriving DecidableEq, Repr

/-- The Go type `UserChecker`: `(*mobile.User, error)` as a pair. -/
abbrev UserChecker := String → String → Bool → Option User × Option GoError

/-- The Go struct `Access`. The logger is represented by the `logError` effects;
`tokenRetriever` stands for `headers.DefaultTokenRetriever` and `formatPlusV`
for the `%+v` rendering of an error, both defined outside the given sources. -/
structure Access where
  host : String
  userCheck : UserChecker
  tokenRetriever : List (String × String) → String
  formatPlusV : GoError → String

/-- `Access.Handle`, as the sequence of effects it performs. -/
def Access.Handle (c : Access) (req : Request) : List Effect :=
  let token := c.tokenRetriever req.Header
  if shouldIgnore (req.Method ++ ":" ++ req.Path) then
    [.next]
  else if token = "" then
    [.httpError "no token provided access denied" 401]
  else
    match (c.userCheck c.host token true).2 with
    | some err =>
      if IsAuthenticationError err then
        [.userCheck c.host token true,
         .logError (GoError.wrap err " access check: checking user is authenticated").Error,
         .httpError err.Error StatusUnauthorized]
      else
        [.userCheck c.host token true,
         .logError ("failed to read user to check access " ++ err.Error ++ " : " ++
           c.formatPlusV err),
         .httpError err.Error StatusInternalServerError]
    | none => [.userCheck c.host token true, .next]

/-- The status codes of the responses written, in order. -/
def responses : List Effect → List Int
  | [] => []
  | .httpError _ code :: rest => code :: responses rest
  | _ :: rest => responses rest

/-- The arguments of the user-check calls made, in order. -/
def userChecks : List Effect → List (String × String × Bool)
  | [] => []
  | .userCheck h t s :: rest => (h, t, s) :: userChecks rest
  | _ :: rest => userChecks rest

/-- How many times the next handler was called. -/
def nextCalls (es : List Effect) : Nat :=
  es.count .next

/-! ## The object store -/

/-- Modelled from the spec: `mobile.App` is declared outside the given sources;
its fields are the ones `pkg/data/mobileApp.go` reads and writes, matching the
attributes the spec lists for an App. -/
structure App where
  ID : String
  Name : String
  DisplayName : String
  ClientType : String
  APIKey : String
  Labels : StringMap
  Description : String
  MetaData : StringMap
  deriving DecidableEq, Repr

/-- The part of a Kubernetes `v1.ConfigMap` the repository uses. -/
structure ConfigMap where
  Name : String
  Labels : StringMap
  Annotations : StringMap
  Data : StringMap
  deriving DecidableEq, Repr

/-- The part of a Kubernetes `v1.Secret` the repository uses. -/
structure Secret where
  Name : String
  Data : Option (Entries ByteSlice)
  deriving DecidableEq, Repr

/-- A write request issued to the object store. -/
inductive StoreCall where
  | createConfigMap (cm : ConfigMap)
  | updateConfigMap (cm : ConfigMap)
  | deleteConfigMap (name : String)
  | createSecret (sec : Secret)
  | updateSecret (sec : Secret)
  deriving DecidableEq, Repr

/-- Modelled from the spec: the object store is an external collaborator (the
Kubernetes client); its contract in the spec is `Get(name) -> Record|NotFound`,
`Create(Record) -> Record|Conflict`, `Update(Record) -> Record|NotFound`,
`Delete(name) -> ()|NotFound`. The state holds the stored records of the
namespace and the journal of write requests issued so far, rejected ones
included. -/
structure Cluster where
  configMaps : List ConfigMap
  secrets : List Secret
  journal : List StoreCall
  deriving DecidableEq, Repr

/-- `ConfigMapInterface.Get`. -/
def Cluster.getConfigMap (s : Cluster) (name : String) : Result ConfigMap :=
  match s.configMaps.find? (fun cm => decide (cm.Name = name)) with
  | some cm => .ok cm
  | none => .err (.notFound name)

/-- `ConfigMapInterface.Create`. -/
def Cluster.createConfigMap (s : Cluster) (cm : ConfigMap) : Result ConfigMap × Cluster :=
  let s1 := { s with journal := s.journal ++ [.createConfigMap cm] }
  match s.configMaps.find? (fun x => decide (x.Name = cm.Name)) with
  | some _ => (.err (.alreadyExists cm.Name), s1)
  | none => (.ok cm, { s1 with configMaps := s.configMaps ++ [cm] })

/-- `ConfigMapInterface.Update`. -/
def Cluster.updateConfigMap (s : Cluster) (cm : ConfigMap) : Result ConfigMap × Cluster :=
  let s1 := { s with journal := s.journal ++ [.updateConfigMap cm] }
  match s.configMaps.find? (fun x => decide (x.Name = cm.Name)) with
  | some _ =>
    (.ok cm, { s1 with
      configMaps := s.configMaps.map (fun x => if x.Name = cm.Name then cm else x) })
  | none => (.err (.notFound cm.Name), s1)

/-- `ConfigMapInterface.Delete`. -/
def Cluster.deleteConfigMap (s : Cluster) (name : String) : Option GoError × Cluster :=
  let s1 := { s with journal := s.journal ++ [.deleteConfigMap name] }
  match s.configMaps.find? (fun x => decide (x.Name = name)) with
  | some _ =>
    (none, { s1 with configMaps := s.configMaps.filter (fun x => decide (x.Name ≠ name)) })
  | none => (some (.notFound name), s1)

/-- `SecretInterface.Get`. -/
def Cluster.getSecret (s : Cluster) (name : String) : Result Secret :=
  match s.secrets.find? (fun x => decide (x.Name = name)) with
  | some sec => .ok sec
  | none => .err (.notFound name)

/-- `SecretInterface.Create`. -/
def Cluster.createSecret (s : Cluster) (sec : Secret) : Result Secret × Cluster :=
  let s1 := { s with journal := s.journal ++ [.createSecret sec] }
  match s.secrets.find? (fun x => decide (x.Name = sec.Name)) with
  | some _ => (.err (.alreadyExists sec.Name), s1)
  | none => (.ok sec, { s1 with secrets := s.secrets ++ [sec] })

/-- `SecretInterface.Update`. -/
def Cluster.updateSecret (s : Cluster) (sec : Secret) : Result Secret × Cluster :=
  let s1 := { s with journal := s.journal ++ [.updateSecret sec] }
  match s.secrets.find? (fun x => decide (x.Name = sec.Name)) with
  | some _ =>
    (.ok sec, { s1 with
      secrets := s.secrets.map (fun x => if x.Name = sec.Name then sec else x) })
  | none => (.err (.notFound sec.Name), s1)

/-! ## pkg/data/mobileApp.go -/

def apiKeyMapName : String := "mcp-mobile-keys"
def apiKeyMapDisplayName : String := "API Keys"

/-- The Go interface `MobileAppValidator`; a nil error is `none`. -/
structure MobileAppValidator where
  PreCreate : App → Option GoError
  PreUpdate : App → App → Option GoError

/-- `encoding/json` at the type `map[string]string`: `Marshal` of a map and
`Unmarshal` of a payload into an empty map. The map that `Unmarshal` leaves can
be the nil map: the JSON value `null` is decoded, without error, by setting the
map to nil. -/
structure JSONCodec where
  Marshal : StringMap → Except GoError String
  Unmarshal : String → Except GoError StringMap

/-- The Go struct `MobileAppRepo`. The two store clients are the `Cluster`
passed to each method; `json` is the `encoding/json` package. -/
structure MobileAppRepo where
  validator : MobileAppValidator
  json : JSONCodec

/-- The two readings of the clock that `Create` takes: `time.Now().Unix()` and
`time.Now().Format("2006-01-02 15:04:05")`. -/
structure Clock where
  unix : Int
  formatted : String

/-- `emptyAPIKeyMap`. -/
def emptyAPIKeyMap : ByteSlice := some "\x7b\x7d"

/-- `convertConfigMapToMobileApp`. -/
def convertConfigMapToMobileApp (m : ConfigMap) : App :=
  { ID := m.Name
    Name := m.Data.index "name"
    DisplayName := m.Data.index "displayName"
    ClientType := m.Data.index "clientType"
    APIKey := m.Data.index "apiKey"
    Labels := m.Labels
    Description := m.Data.index "description"
    MetaData := some [("icon", m.Annotations.index "icon"),
                      ("created", m.Annotations.index "created")] }

/-- `convertMobileAppToConfigMap`. -/
def convertMobileAppToConfigMap (app : App) : ConfigMap :=
  { Name := app.ID
    Labels := some [("group", "mobileapp"), ("name", app.Name)]
    Annotations := some [("icon", app.MetaData.index "icon"),
                         ("created", app.MetaData.index "created")]
    Data := some [("name", app.Name),
                  ("displayName", app.DisplayName),
                  ("clientType", app.ClientType),
                  ("apiKey", app.APIKey),
                  ("description", app.Description)] }

/-- `MobileAppRepo.readUnderlyingConfigMap`. -/
def MobileAppRepo.readUnderlyingConfigMap (_mar : MobileAppRepo) (a : App) (s : Cluster) :
    Result ConfigMap :=
  match s.getConfigMap a.Name with
  | .err err => .err (.wrap err ("failed to read underlying configmap for app " ++ a.Name))
  | .panic msg => .panic msg
  | .ok cm => .ok cm

/-- The zero value of `mobile.App` with the given name, `&mobile.App{Name: name}`. -/
def App.named (name : String) : App :=
  { ID := "", Name := name, DisplayName := "", ClientType := "", APIKey := "",
    Labels := none, Description := "", MetaData := none }

/-- `MobileAppRepo.readMobileAppAndConfigMap`. -/
def MobileAppRepo.readMobileAppAndConfigMap (mar : MobileAppRepo) (name : String)
    (s : Cluster) : Result (App × ConfigMap) :=
  match mar.readUnderlyingConfigMap (App.named name) s with
  | .err err => .err err
  | .panic msg => .panic msg
  | .ok cm => .ok (convertConfigMapToMobileApp cm, cm)

/-- `MobileAppRepo.ReadByName`. -/
def MobileAppRepo.ReadByName (mar : MobileAppRepo) (name : String) (s : Cluster) :
    Result App :=
  match mar.readMobileAppAndConfigMap name s with
  | .err err => .err (.wrap err "failed to retrieve mobile app ")
  | .panic msg => .panic msg
  | .ok (_, cm) => .ok (convertConfigMapToMobileApp cm)

/-- `MobileAppRepo.Create`. The app is passed by pointer in Go, so the method
returns the app as it leaves it, next to the error result and the store. -/
def MobileAppRepo.Create (mar : MobileAppRepo) (clock : Clock) (app : App) (s : Cluster) :
    Result Unit × App × Cluster :=
  match mar.validator.PreCreate app with
  | some err => (.err (.wrap err "validation failed during create"), app, s)
  | none =>
    let app := { app with ID := app.Name ++ "-" ++ toString clock.unix }
    match app.MetaData with
    | none => (.panic "assignment to entry in nil map", app, s)
    | some md =>
      let app := { app with MetaData := some (Entries.set md "created" clock.formatted) }
      let cm := convertMobileAppToConfigMap app
      match s.createConfigMap cm with
      | (.err err, s') =>
        (.err (.wrap err "failed to create underlying configmap for mobile app"), app, s')
      | (.panic msg, s') => (.panic msg, app, s')
      | (.ok _, s') => (.ok (), app, s')

/-- `MobileAppRepo.DeleteByName`. -/
def MobileAppRepo.DeleteByName (_mar : MobileAppRepo) (name : String) (s : Cluster) :
    Option GoError × Cluster :=
  s.deleteConfigMap name

/-- `MobileAppRepo.Update`. -/
def MobileAppRepo.Update (mar : MobileAppRepo) (app : App) (s : Cluster) :
    Result App × Cluster :=
  match mar.readMobileAppAndConfigMap app.Name s with
  | .err err => (.err err, s)
  | .panic msg => (.panic msg, s)
  | .ok (old, cm) =>
    match mar.validator.PreUpdate old app with
    | some err => (.err (.wrap err "validation failed before update"), s)
    | none =>
      match cm.Data with
      | none => (.panic "assignment to entry in nil map", s)
      | some d =>
        let d := Entries.set d "name" app.Name
        let d := Entries.set d "clientType" app.ClientType
        let cm := { cm with Data := some d }
        match s.updateConfigMap cm with
        | (.err err, s') => (.err (.wrap err "failed to update mobile app configmap"), s')
        | (.panic msg, s') => (.panic msg, s')
        | (.ok cmap, s') => (.ok (convertConfigMapToMobileApp cmap), s')

/-- `MobileAppRepo.CreateAPIKeyMap`. -/
def MobileAppRepo.CreateAPIKeyMap (_mar : MobileAppRepo) (s : Cluster) :
    Option GoError × Cluster :=
  match s.getSecret apiKeyMapName with
  | .ok _ => (none, s)
  | _ =>
    match s.createSecret
      { Name := apiKeyMapName
        Data := some [("name", some apiKeyMapName),
                      ("type", some apiKeyMapName),
                      ("displayName", some apiKeyMapDisplayName),
                      ("apiKeys", emptyAPIKeyMap)] } with
    | (.err err, s') => (some err, s')
    | (_, s') => (none, s')

/-- The Go expression `sec.Data["apiKeys"]`: the nil slice when the map is nil or
has no such key. -/
def Secret.index (d : Entries ByteSlice) (k : String) : ByteSlice :=
  (Entries.get d k).getD none

/-- `json.Unmarshal(sec.Data["apiKeys"], &apiKeys)`; the nil slice is read as
the empty input. -/
def JSONCodec.unmarshalBytes (json : JSONCodec) (b : ByteSlice) :
    Except GoError StringMap :=
  json.Unmarshal (b.getD "")

/-- `MobileAppRepo.AddAPIKeyToMap`. -/
def MobileAppRepo.AddAPIKeyToMap (mar : MobileAppRepo) (app : App) (s : Cluster) :
    Result Unit × Cluster :=
  match s.getSecret apiKeyMapName with
  | .err err => (.err (.wrap err "Adding API Key to map, could not retrieve map"), s)
  | .panic msg => (.panic msg, s)
  | .ok sec =>
    let d : Entries ByteSlice :=
      match sec.Data with
      | none => []
      | some d => d
    let d : Entries ByteSlice :=
      match Secret.index d "apiKeys" with
      | none => Entries.set d "apiKeys" emptyAPIKeyMap
      | some _ => d
    match mar.json.unmarshalBytes (Secret.index d "apiKeys") with
    | .error err => (.err (.wrap err "Adding API Key to map, could not unmarshal key map"), s)
    | .ok none => (.panic "assignment to entry in nil map", s)
    | .ok (some apiKeys) =>
      let apiKeys := Entries.set apiKeys app.ID app.APIKey
      match mar.json.Marshal (some apiKeys) with
      | .error err => (.err (.wrap err "Adding API Key to map, could not marshal key map"), s)
      | .ok apiKeysJSON =>
        let sec := { sec with Data := some (Entries.set d "apiKeys" (some apiKeysJSON)) }
        match s.updateSecret sec with
        | (.err err, s') => (.err (.wrap err "Adding API Key to map, could not update map"), s')
        | (.panic msg, s') => (.panic msg, s')
        | (.ok _, s') => (.ok (), s')

/-- `MobileAppRepo.RemoveAPIKeyFromMap`. -/
def MobileAppRepo.RemoveAPIKeyFromMap (mar : MobileAppRepo) (appID : String) (s : Cluster) :
    Result Unit × Cluster :=
  match s.getSecret apiKeyMapName with
  | .err err => (.err (.wrap err "Removing API Key from map, could not retrieve map"), s)
  | .panic msg => (.panic msg, s)
  | .ok sec =>
    let d : Entries ByteSlice :=
      match sec.Data with
      | none => []
      | some d => d
    let d : Entries ByteSlice :=
      match Secret.index d "apiKeys" with
      | none => Entries.set d "apiKeys" emptyAPIKeyMap
      | some _ => d
    match mar.json.unmarshalBytes (Secret.index d "apiKeys") with
    | .error err =>
      (.err (.wrap err "Removing API Key from map, could not unmarshal key map"), s)
    | .ok apiKeys =>
      let apiKeys := StringMap.delete apiKeys appID
      match mar.json.Marshal apiKeys with
      | .error err =>
        (.err (.wrap err "Removing API Key from map, could not marshal key map"), s)
      | .ok apiKeysJSON =>
        let sec := { sec with Data := some (Entries.set d "apiKeys" (some apiKeysJSON)) }
        match s.updateSecret sec with
        | (.err err, s') =>
          (.err (.wrap err "Removing API Key from map, could not update map"), s')
        | (.panic msg, s') => (.panic msg, s')
        | (.ok _, s') => (.ok (), s')

/-- The data map of the registry record as both registry methods use it, after
their lines 131-136 and 163-168: a nil map is replaced by an empty one, and a
nil `apiKeys` payload by `emptyAPIKeyMap()`. -/
def Secret.withDefaults (sec : Secret) : Entries ByteSlice :=
  let d : Entries ByteSlice :=
    match sec.Data with
    | none => []
    | some d => d
  match Secret.index d "apiKeys" with
  | none => Entries.set d "apiKeys" emptyAPIKeyMap
  | some _ => d

/-- The raw `apiKeys` payload of the registry record held by the store: the
nil slice when the record has no data map or no such key. -/
def Secret.payload (sec : Secret) : ByteSlice :=
  match sec.Data with
  | none => none
  | some d => Secret.index d "apiKeys"

/-- The registry record held by the store carries a non-nil `apiKeys` payload
that decodes to the non-nil map with entries `m`. -/
def Cluster.RegistryDecodes (json : JSONCodec) (s : Cluster) (m : Entries String) : Prop :=
  ∃ sec p, s.getSecret apiKeyMapName = .ok sec ∧ sec.payload = some p ∧
    json.Unmarshal p = .ok (some m)

/-! ## pkg/mobile/app/service.go -/

/-- Modelled from the spec: the client-type constants `mobile.AndroidApp`,
`mobile.IOSApp` and `mobile.CordovaApp` are declared outside the given sources;
the spec's lookup table names the client types `android`, `ios` and `cordova`. -/
def AndroidApp : String := "android"

/-- Modelled from the spec: see `AndroidApp`. -/
def IOSApp : String := "ios"

/-- Modelled from the spec: see `AndroidApp`. -/
def CordovaApp : String := "cordova"

/-- The `switch app.ClientType` of `Service.Create`: which icon is assigned, if
any. -/
def iconFor (clientType : String) : Option String :=
  if clientType = AndroidApp then some "fa-android"
  else if clientType = IOSApp then some "fa-apple"
  else if clientType = CordovaApp then some "icon-cordova"
  else none

/-- `Service.Create` over the repository; `uid` is the string of `uuid.NewV4()`.
Returns the error result, the app as the call leaves it, and the store. -/
def Service.Create (mar : MobileAppRepo) (uid : String) (clock : Clock) (app : App)
    (s : Cluster) : Result Unit × App × Cluster :=
  let app := { app with APIKey := uid }
  let assigned : Option App :=
    match iconFor app.ClientType with
    | none => some app
    | some icon =>
      match app.MetaData with
      | none => none
      | some md => some { app with MetaData := some (Entries.set md "icon" icon) }
  match assigned with
  | none => (.panic "assignment to entry in nil map", app, s)
  | some app =>
    match mar.Create clock app s with
    | (.err err, app, s') =>
      (.err (.wrap err "mobile app create: Attempted to create app via app repo"), app, s')
    | (.panic msg, app, s') => (.panic msg, app, s')
    | (.ok _, app, s') =>
      match mar.AddAPIKeyToMap app s' with
      | (.err err, s'') => (.err (.wrap err "app create, could not add api key"), app, s'')
      | (.panic msg, s'') => (.panic msg, app, s'')
      | (.ok _, s'') => (.ok (), app, s'')

/-- `Service.Delete` over the repository. -/
def Service.Delete (mar : MobileAppRepo) (appID : String) (s : Cluster) :
    Result Unit × Cluster :=
  match mar.DeleteByName appID s with
  | (some err, s') => (.err err, s')
  | (none, s') =>
    match mar.RemoveAPIKeyFromMap appID s' with
    | (.err err, s'') => (.err err, s'')
    | (.panic msg, s'') => (.panic msg, s'')
    | (.ok _, s'') => (.ok (), s'')

/-! ## The registry write on a store that may refuse it -/

/-- `SecretInterface.Update` on a store that may refuse the write: `refusal` is
the error with which the store answers the request (the API server being
unavailable, the update being forbidden or conflicting), `none` when the store
accepts it. A refused request is journalled and changes no record. -/
def Cluster.updateSecretOn (s : Cluster) (refusal : Option GoError) (sec : Secret) :
    Result Secret × Cluster :=
  match refusal with
  | some err => (.err err, { s with journal := s.journal ++ [.updateSecret sec] })
  | none => s.updateSecret sec

/-- `MobileAppRepo.AddAPIKeyToMap` with the store's answer to its final write,
line 151, as a parameter; `MobileAppRepo.AddAPIKeyToMap` above is the case of a
store that accepts the write. -/
def MobileAppRepo.AddAPIKeyToMapOn (mar : MobileAppRepo) (refusal : Option GoError)
    (app : App) (s : Cluster) : Result Unit × Cluster :=
  match s.getSecret apiKeyMapName with
  | .err err => (.err (.wrap err "Adding API Key to map, could not retrieve map"), s)
  | .panic msg => (.panic msg, s)
  | .ok sec =>
    let d : Entries ByteSlice :=
      match sec.Data with
      | none => []
      | some d => d
    let d : Entries ByteSlice :=
      match Secret.index d "apiKeys" with
      | none => Entries.set d "apiKeys" emptyAPIKeyMap
      | some _ => d
    match mar.json.unmarshalBytes (Secret.index d "apiKeys") with
    | .error err => (.err (.wrap err "Adding API Key to map, could not unmarshal key map"), s)
    | .ok none => (.panic "assignment to entry in nil map", s)
    | .ok (some apiKeys) =>
      let apiKeys := Entries.set apiKeys app.ID app.APIKey
      match mar.json.Marshal (some apiKeys) with
      | .error err => (.err (.wrap err "Adding API Key to map, could not marshal key map"), s)
      | .ok apiKeysJSON =>
        let sec := { sec with Data := some (Entries.set d "apiKeys" (some apiKeysJSON)) }
        match s.updateSecretOn refusal sec with
        | (.err err, s') => (.err (.wrap err "Adding API Key to map, could not update map"), s')
        | (.panic msg, s') => (.panic msg, s')
        | (.ok _, s') => (.ok (), s')

/-- `Service.Create` over the repository, with the store's answer to the
registry write as a parameter; `Service.Create` above is the case of a store
that accepts the write. -/
def Service.CreateOn (mar : MobileAppRepo) (refusal : Option GoError) (uid : String)
    (clock : Clock) (app : App) (s : Cluster) : Result Unit × App × Cluster :=
  let app := { app with APIKey := uid }
  let assigned : Option App :=
    match iconFor app.ClientType with
    | none => some app
    | some icon =>
      match app.MetaData with
      | none => none
      | some md => some { app with MetaData := some (Entries.set md "icon" icon) }
  match assigned with
  | none => (.panic "assignment to entry in nil map", app, s)
  | some app =>
    match mar.Create clock app s with
    | (.err err, app, s') =>
      (.err (.wrap err "mobile app create: Attempted to create app via app repo"), app, s')
    | (.panic msg, app, s') => (.panic msg, app, s')
    | (.ok _, app, s') =>
      match mar.AddAPIKeyToMapOn refusal app s' with
      | (.err err, s'') => (.err (.wrap err "app create, could not add api key"), app, s'')
      | (.panic msg, s'') => (.panic msg, app, s'')
      | (.ok _, s'') => (.ok (), app, s'')

/-- The app as `Service.Create` hands it to the repository, lines 13-26 of
`service.go`: the generated key is stored on it and the icon of its client type,
if the table has one, is assigned; `none` when that assignment panics on a nil
metadata map. -/
def Service.prepare (uid : String) (app : App) : Option App :=
  let app := { app with APIKey := uid }
  match iconFor app.ClientType with
  | none => some app
  | some icon =>
    match app.MetaData with
    | none => none
    | some md => some { app with MetaData := some (Entries.set md "icon" icon) }

/-! ## pkg/k8s/clientBuilder.go -/

/-- The Go struct `ClientBuilder`; the field `namespace` is written `namespace_`. -/
structure ClientBuilder where
  namespace_ : String
  token : String
  host : String
  inCluster : Bool
  deriving DecidableEq, Repr

/-- `NewClientBuilder`. -/
def NewClientBuilder (namespace_ host : String) (incluster : Bool) : ClientBuilder :=
  { namespace_ := namespace_, token := "", host := host, inCluster := incluster }

/-- `ClientBuilder.WithToken`: a composite literal that names `namespace`,
`token` and `host`; `inCluster` is left at its zero value. -/
def ClientBuilder.WithToken (cb : ClientBuilder) (token : String) : ClientBuilder :=
  { namespace_ := cb.namespace_, token := token, host := cb.host, inCluster := false }

/-- `ClientBuilder.WithNamespace`. -/
def ClientBuilder.WithNamespace (cb : ClientBuilder) (ns : String) : ClientBuilder :=
  { namespace_ := ns, token := cb.token, host := cb.host, inCluster := false }

/-- `ClientBuilder.WithHost`. -/
def ClientBuilder.WithHost (cb : ClientBuilder) (host : String) : ClientBuilder :=
  { namespace_ := cb.namespace_, token := cb.token, host := host, inCluster := false }

/-- `ClientBuilder.WithHostAndNamespace`. -/
def ClientBuilder.WithHostAndNamespace (cb : ClientBuilder) (host ns : String) :
    ClientBuilder :=
  { namespace_ := ns, token := cb.token, host := host, inCluster := false }

/-- The part of a `rest.Config` the builder sets. -/
structure RestConfig where
  Host : String
  BearerToken : String
  Insecure : Bool
  deriving DecidableEq, Repr

/-- A `kubernetes.Interface`, identified by the configuration it was made for. -/
structure K8Client where
  config : RestConfig
  deriving DecidableEq, Repr

/-- The client-go calls of `clientBuilder.go`: `rest.InClusterConfig`, the
`clientcmd` configuration built from the overrides (insecure flag, server,
token), and `kubernetes.NewForConfig`. -/
structure K8sEnv where
  InClusterConfig : Except GoError RestConfig
  ClientConfig : Bool → String → String → Except GoError RestConfig
  NewForConfig : RestConfig → Except GoError K8Client

/-- `ClientForInCluster`. -/
def ClientForInCluster (env : K8sEnv) (token : String) : Except GoError K8Client :=
  match env.InClusterConfig with
  | .error err =>
    .error (.wrap err "failed to create incluster config for kubernetes client")
  | .ok incluster => env.NewForConfig { incluster with BearerToken := token }

/-- `ClientForOutsideCluster`. -/
def ClientForOutsideCluster (env : K8sEnv) (host token : String) : Except GoError K8Client :=
  match env.ClientConfig true host token with
  | .error err => .error (.wrap err "failed to create kubernetes client config")
  | .ok rc =>
    match env.NewForConfig rc with
    | .error err => .error (.wrap err "failed to create new kubernetes client ")
    | .ok kc => .ok kc

/-- `ClientBuilder.BuildClient`. -/
def ClientBuilder.BuildClient (env : K8sEnv) (cb : ClientBuilder) : Except GoError K8Client :=
  if cb.inCluster then ClientForInCluster env cb.token
  else ClientForOutsideCluster env cb.host cb.token

/-! ## pkg/data/mobileApp.go: the repository builder -/

/-- The Go struct `MobileAppRepoBuilder`; `clientBuilder` has the interface type
`mobile.K8ClientBuilder`, whose implementation is `ClientBuilder`. -/
structure MobileAppRepoBuilder where
  clientBuilder : ClientBuilder
  token : String
  namespace_ : String
  saToken : String
  deriving DecidableEq, Repr

/-- `NewMobileAppRepoBuilder`. -/
def NewMobileAppRepoBuilder (clientBuilder : ClientBuilder) (namespace_ saToken : String) :
    MobileAppRepoBuilder :=
  { clientBuilder := clientBuilder, token := "", namespace_ := namespace_, saToken := saToken }

/-- `MobileAppRepoBuilder.WithToken`: a composite literal that names
`clientBuilder`, `token` and `namespace`; `saToken` is left at its zero value. -/
def MobileAppRepoBuilder.WithToken (marb : MobileAppRepoBuilder) (t : String) :
    MobileAppRepoBuilder :=
  { clientBuilder := marb.clientBuilder, token := t, namespace_ := marb.namespace_,
    saToken := "" }

/-- `MobileAppRepoBuilder.UseDefaultSAToken`. -/
def MobileAppRepoBuilder.UseDefaultSAToken (marb : MobileAppRepoBuilder) :
    MobileAppRepoBuilder :=
  { clientBuilder := marb.clientBuilder, token := marb.saToken,
    namespace_ := marb.namespace_, saToken := "" }

/-- The client that `MobileAppRepoBuilder.Build` obtains, its first statement:
`marb.clientBuilder.WithToken(marb.token).BuildClient()`. -/
def MobileAppRepoBuilder.buildClient (env : K8sEnv) (marb : MobileAppRepoBuilder) :
    Except GoError K8Client :=
  match (marb.clientBuilder.WithToken marb.token).BuildClient env with
  | .error err =>
    .error (.wrap err "MobileAppRepoBuilder failed to build a configmap client")
  | .ok k8client => .ok k8client

/-! ## A reference JSON codec for `map[string]string` -/

/-- String escaping of the reference codec: the quote and the backslash are
escaped with a backslash, every other character is written as it is. -/
def jsonEscape : List Char → List Char
  | [] => []
  | c :: cs =>
    if c = '"' ∨ c = '\\' then '\\' :: c :: jsonEscape cs else c :: jsonEscape cs

/-- A JSON string literal. -/
def jsonQuote (s : String) : List Char :=
  '"' :: (jsonEscape s.toList ++ ['"'])

/-- The members of a JSON object, separated by commas. -/
def jsonMembers : List (String × String) → List Char
  | [] => []
  | [(k, v)] => jsonQuote k ++ ':' :: jsonQuote v
  | (k, v) :: e :: rest => jsonQuote k ++ ':' :: jsonQuote v ++ ',' :: jsonMembers (e :: rest)

/-- One binding per key, the first one of each key. -/
def Entries.dedup {V : Type} : Entries V → Entries V
  | [] => []
  | e :: rest => e :: Entries.delete (Entries.dedup rest) e.1

/-- The bindings of a map in the order `json.Marshal` writes them: sorted by key. -/
def Entries.canonical (m : Entries String) : Entries String :=
  List.insertionSort (fun a b => a.1.toList ≤ b.1.toList) (Entries.dedup m)

/-- `json.Marshal` of a `map[string]string` in the reference codec. -/
def refMarshal (m : Entries String) : String :=
  String.mk ('\x7b' :: (jsonMembers (Entries.canonical m) ++ ['\x7d']))

/-- States of the reference decoder, a scanner over the characters of the
payload. `acc` holds the members read so far, in order. -/
inductive Scan where
  | start
  | first (acc : List (String × String))
  | key (acc : List (String × String)) (k : List Char)
  | keyEsc (acc : List (String × String)) (k : List Char)
  | colon (acc : List (String × String)) (k : List Char)
  | value (acc : List (String × String)) (k : List Char)
  | str (acc : List (String × String)) (k v : List Char)
  | strEsc (acc : List (String × String)) (k v : List Char)
  | next (acc : List (String × String))
  | more (acc : List (String × String))
  | done (acc : List (String × String))
  deriving DecidableEq, Repr

/-- JSON insignificant whitespace. -/
def isJSONSpace (c : Char) : Bool :=
  c = ' ' || c = '\t' || c = '\n' || c = '\r'

/-- The character an escape sequence `\c` stands for, for the one-character
escapes of JSON. -/
def unescape (c : Char) : Option Char :=
  if c = '"' then some '"'
  else if c = '\\' then some '\\'
  else if c = '/' then some '/'
  else if c = 'n' then some '\n'
  else if c = 't' then some '\t'
  else if c = 'r' then some '\r'
  else none

/-- One step of the reference decoder; `none` is a syntax error. -/
def Scan.step : Scan → Char → Option Scan
  | .start, c =>
    if c = '\x7b' then some (.first []) else if isJSONSpace c then some .start else none
  | .first acc, c =>
    if c = '"' then some (.key acc [])
    else if c = '\x7d' then some (.done acc)
    else if isJSONSpace c then some (.first acc) else none
  | .key acc k, c =>
    if c = '"' then some (.colon acc k)
    else if c = '\\' then some (.keyEsc acc k)
    else some (.key acc (k ++ [c]))
  | .keyEsc acc k, c => (unescape c).map (fun d => .key acc (k ++ [d]))
  | .colon acc k, c =>
    if c = ':' then some (.value acc k) else if isJSONSpace c then some (.colon acc k) else none
  | .value acc k, c =>
    if c = '"' then some (.str acc k [])
    else if isJSONSpace c then some (.value acc k) else none
  | .str acc k v, c =>
    if c = '"' then some (.next (acc ++ [(String.mk k, String.mk v)]))
    else if c = '\\' then some (.strEsc acc k v)
    else some (.str acc k (v ++ [c]))
  | .strEsc acc k v, c => (unescape c).map (fun d => .str acc k (v ++ [d]))
  | .next acc, c =>
    if c = ',' then some (.more acc)
    else if c = '\x7d' then some (.done acc)
    else if isJSONSpace c then some (.next acc) else none
  | .more acc, c =>
    if c = '"' then some (.key acc []) else if isJSONSpace c then some (.more acc) else none
  | .done acc, c => if isJSONSpace c then some (.done acc) else none

/-- The decoder run over a list of characters. -/
def Scan.run : Scan → List Char → Option Scan
  | st, [] => some st
  | st, c :: cs =>
    match st.step c with
    | none => none
    | some st' => st'.run cs

/-- `json.Unmarshal` into an empty `map[string]string` in the reference codec:
the members are assigned to the map in the order they are read, so a later
duplicate key overwrites an earlier one; the literal `null` sets the map to
nil, without error; anything else but a flat object of strings, the empty input
included, is an error. -/
def refUnmarshal (b : String) : Except GoError StringMap :=
  if b = "null" then .ok none
  else
    match Scan.run .start b.toList with
    | some (.done acc) => .ok (some (acc.foldl (fun m e => Entries.set m e.1 e.2) []))
    | _ =>
      if b = "" then .error (.new "unexpected end of JSON input")
      else .error (.new "invalid character or type in JSON input")

/-- The reference codec; the nil map is marshalled as `null`. -/
def refJSON : JSONCodec where
  Marshal := fun m =>
    match m with
    | none => .ok "null"
    | some es => .ok (refMarshal es)
  Unmarshal := refUnmarshal

/-- What the embedding assumes of `encoding/json`: a non-nil map that is
marshalled and then unmarshalled is again a non-nil map, with the same value at
every key, and the payload `{}` is the empty non-nil map. -/
structure JSONCodec.Lawful (json : JSONCodec) : Prop where
  roundTrip : ∀ m : Entries String, ∃ b, json.Marshal (some m) = .ok b ∧
    ∃ m', json.Unmarshal b = .ok (some m') ∧ ∀ k, Entries.get m' k = Entries.get m k
  emptyObject : ∃ m, json.Unmarshal "\x7b\x7d" = .ok (some m) ∧
    ∀ k, Entries.get m k = none

/-! ## Reference values -/

/-- A client that answers every request with status 201 and body `"alice-dev"`. -/
def createdClient : HTTPRequest → Except GoError HTTPResponse :=
  fun _ => .ok { StatusCode := 201, Body := .ok "alice-dev" }

/-- A client that answers every request with the given status and an unreadable body. -/
def statusClient (code : Int) : HTTPRequest → Except GoError HTTPResponse :=
  fun _ => .ok { StatusCode := code, Body := .error (.new "unexpected EOF") }

/-- An access gate whose token is the value of the first header and whose
user-check rejects every token with an AuthenticationError. -/
def exampleAccess : Access where
  host := "https://cluster"
  userCheck := fun _ _ _ => (none, some (.authentication "access was denied" 401))
  tokenRetriever := fun h => (h.head?.map Prod.snd).getD ""
  formatPlusV := fun e => e.Error

/-- A validator that accepts every app. -/
def acceptAll : MobileAppValidator where
  PreCreate := fun _ => none
  PreUpdate := fun _ _ => none

/-- A repository with the accepting validator and the reference codec. -/
def exampleRepo : MobileAppRepo where
  validator := acceptAll
  json := refJSON

/-- A store with no records. -/
def emptyCluster : Cluster :=
  { configMaps := [], secrets := [], journal := [] }

/-- An app as a caller submits it. -/
def shopApp : App :=
  { ID := "", Name := "shop", DisplayName := "Shop", ClientType := "ios", APIKey := "key-1",
    Labels := none, Description := "", MetaData := some [] }

/-- A reading of the clock. -/
def clockAt (unix : Int) : Clock :=
  { unix := unix, formatted := "2017-07-14 02:40:00" }

/-- The store after `CreateAPIKeyMap` on the empty store: the registry record
exists and its payload is `{}`. -/
def registryCluster : Cluster :=
  (exampleRepo.CreateAPIKeyMap emptyCluster).2

/-- A store whose registry record carries a zero-length, non-nil payload. -/
def emptyPayloadCluster : Cluster :=
  { configMaps := [],
    secrets := [{ Name := apiKeyMapName, Data := some [("apiKeys", some "")] }],
    journal := [] }

/-- A store whose registry record has no data map. -/
def nilDataCluster : Cluster :=
  { configMaps := [], secrets := [{ Name := apiKeyMapName, Data := none }], journal := [] }

/-- The store after the app named `shop` was created at epoch second 100. -/
def shopCluster : Cluster :=
  (exampleRepo.Create (clockAt 100) shopApp emptyCluster).2.2

/-- An update request for the record `shop-100` that carries other values in
every field. -/
def shopUpdate : App :=
  { ID := "other-id", Name := "shop-100", DisplayName := "Renamed", ClientType := "android",
    APIKey := "key-2", Labels := none, Description := "changed",
    MetaData := some [("icon", "fa-android")] }

/-- An app as it reaches `AddAPIKeyToMap`: id and key assigned. -/
def keyedApp : App :=
  { shopApp with ID := "shop-100" }

/-- An app of a client type outside the icon table, submitted with an icon of
the caller's own. -/
def webApp : App :=
  { ID := "", Name := "portal", DisplayName := "Portal", ClientType := "web", APIKey := "",
    Labels := none, Description := "", MetaData := some [("icon", "fa-star")] }

/-- A client builder for use inside the cluster. -/
def inClusterBuilder : ClientBuilder :=
  NewClientBuilder "myproject" "https://cluster" true

/-- A repository builder that holds a service-account token. -/
def saBuilder : MobileAppRepoBuilder :=
  NewMobileAppRepoBuilder inClusterBuilder "myproject" "sa-token"

/-- A client-go environment in which every call succeeds: the in-cluster
configuration points at `https://kubernetes.default.svc`. -/
def exampleK8s : K8sEnv where
  InClusterConfig :=
    .ok { Host := "https://kubernetes.default.svc", BearerToken := "", Insecure := false }
  ClientConfig := fun insecure host token =>
    .ok { Host := host, BearerToken := token, Insecure := insecure }
  NewForConfig := fun rc => .ok { config := rc }

/-- The app `shopApp` as `Service.Create` hands it to the repository with the
generated key `uuid-1`. -/
def preparedShop : App :=
  { shopApp with APIKey := "uuid-1", MetaData := some [("icon", "fa-apple")] }

/-- The payload of a registry that holds one key. -/
def otherKeyPayload : String :=
  "\x7b\"other-1\":\"k0\"\x7d"

/-- A store whose registry record holds the key of one other app. -/
def otherKeyCluster : Cluster :=
  { configMaps := [],
    secrets := [{ Name := apiKeyMapName, Data := some [("apiKeys", some otherKeyPayload)] }],
    journal := [] }

/-- A store whose registry record carries the JSON value `null` as payload. -/
def nullCluster : Cluster :=
  { configMaps := [],
    secrets := [{ Name := apiKeyMapName, Data := some [("apiKeys", some "null")] }],
    journal := [] }

/-- The error of a store that refuses a write because the API server is
unavailable. -/
def refusedWrite : GoError :=
  .new "the server is currently unable to handle the request"

/-- The store after `shop` was created through the service at epoch second 100
and its record then deleted with `DeleteByName`: the registry still holds the
key of `shop-100`, the record is gone. -/
def staleCluster : Cluster :=
  (exampleRepo.DeleteByName "shop-100"
    (Service.Create exampleRepo "uuid-1" (clockAt 100) shopApp registryCluster).2.2).2

/-! ## Theorems: permission check -/

theorem InAnyGroup_iff (u : User) (groups : List String) :
    u.InAnyGroup groups = true ↔ ∃ g, g ∈ u.Groups ∧ g ∈ groups := by
  simp only [User.InAnyGroup, List.any_eq_true, decide_eq_true_eq]
  constructor
  · rintro ⟨g, hg, cg, hcg, rfl⟩
    exact ⟨cg, hg, hcg⟩
  · rintro ⟨g, hg, hgg⟩
    exact ⟨g, hg, g, hgg, rfl⟩

/-- C1: on a 201 Created response whose body reads as `data` and decodes to
`res`, `Check` returns `(allowed, nil)` where `allowed` is true exactly when the
caller's username is in `res.Users` or one of the caller's groups is in
`res.Groups`. -/
theorem check_created_decision (env : CheckEnv) (ac : AuthChecker) (resource ns : String)
    (client : HTTPRequest → Except GoError HTTPResponse)
    (user : User) (u bytePayload data : String) (req : HTTPRequest) (resp : HTTPResponse)
    (res : authCheckResponse)
    (hUser : ac.UserRepo = .ok user)
    (hUrl : env.urlParse ac.Host = .ok u)
    (hMarshal : env.jsonMarshal { Verb := "update", Resource := "deploymentconfigs" }
      = .ok bytePayload)
    (hReq : env.newRequest "POST"
      (env.withPath u
        (env.pathJoin ("/oapi/v1/namespaces/" ++ ns ++ "/localresourceaccessreviews")))
      bytePayload = .ok req)
    (hDo : client { req with
        Header := (headerSet (headerSet req.Header "authorization" ("bearer " ++ ac.Token))
          "Content-Type" "Application/JSON") } = .ok resp)
    (hStatus : resp.StatusCode = StatusCreated)
    (hBody : resp.Body = .ok data)
    (hDecode : env.jsonUnmarshal data = .ok res) :
    ∃ allowed : Bool,
      AuthChecker.Check env ac resource ns client = (allowed, none) ∧
      (allowed = true ↔
        (user.User ∈ res.Users ∨ ∃ g, g ∈ user.Groups ∧ g ∈ res.Groups)) := by
  have h403 : ¬ (StatusCreated = StatusForbidden) := by decide
  by_cases hin : res.Users.any (fun u => decide (u = user.User)) = true
  · refine ⟨true, ?_, ?_⟩
    · simp [AuthChecker.Check, hUser, hUrl, hMarshal, hReq, hDo, hStatus, hBody, hDecode,
        h403, hin]
    · simp only [true_iff]
      left
      simp only [List.any_eq_true, decide_eq_true_eq] at hin
      obtain ⟨x, hx, rfl⟩ := hin
      exact hx
  · refine ⟨user.InAnyGroup res.Groups, ?_, ?_⟩
    · simp [AuthChecker.Check, hUser, hUrl, hMarshal, hReq, hDo, hStatus, hBody, hDecode,
        h403, hin]
    · rw [InAnyGroup_iff]
      constructor
      · intro h
        exact Or.inr h
      · rintro (h | h)
        · exfalso
          apply hin
          simp only [List.any_eq_true, decide_eq_true_eq]
          exact ⟨user.User, h, rfl⟩
        · exact h

theorem check_created_decision_witness :
    ∃ allowed : Bool,
      AuthChecker.Check exampleEnv (exampleChecker ⟨"bob", ["ops", "dev"]⟩) "apps" "myproject"
        createdClient = (allowed, none) ∧
      (allowed = true ↔
        ("bob" ∈ ["alice"] ∨ ∃ g, g ∈ ["ops", "dev"] ∧ g ∈ ["dev"])) :=
  check_created_decision exampleEnv (exampleChecker ⟨"bob", ["ops", "dev"]⟩) "apps" "myproject"
    createdClient ⟨"bob", ["ops", "dev"]⟩ "https://cluster"
    payloadJSON "alice-dev"
    { Method := "POST",
      URL := "https://cluster" ++ "/oapi/v1/namespaces/" ++ "myproject" ++
        "/localresourceaccessreviews",
      Header := [],
      Body := payloadJSON }
    { StatusCode := 201, Body := .ok "alice-dev" }
    { Users := ["alice"], Groups := ["dev"] }
    rfl rfl rfl (by simp [exampleEnv, String.append_assoc]) rfl rfl rfl (by simp [exampleEnv])

/-- C2: a response whose status is not 201 is classified by the status code
alone: 403 gives `(false, nil)`, 401 gives `(false, AuthenticationError)` with
`StatusCode` 401, any other status gives `(false, err)` with `err` built by
`errors.New`; and `Check` never returns `true` together with an error, nor
without a 201 response having been received. -/
theorem check_status_classification (env : CheckEnv) (ac : AuthChecker) (resource ns : String)
    (client : HTTPRequest → Except GoError HTTPResponse) :
    (∀ (user : User) (u bytePayload : String) (req : HTTPRequest) (resp : HTTPResponse),
      ac.UserRepo = .ok user →
      env.urlParse ac.Host = .ok u →
      env.jsonMarshal { Verb := "update", Resource := "deploymentconfigs" } = .ok bytePayload →
      env.newRequest "POST"
        (env.withPath u
          (env.pathJoin ("/oapi/v1/namespaces/" ++ ns ++ "/localresourceaccessreviews")))
        bytePayload = .ok req →
      client { req with
        Header := (headerSet (headerSet req.Header "authorization" ("bearer " ++ ac.Token))
          "Content-Type" "Application/JSON") } = .ok resp →
      resp.StatusCode ≠ 201 →
      AuthChecker.Check env ac resource ns client =
        if resp.StatusCode = 403 then (false, none)
        else if resp.StatusCode = 401 then
          (false, some (.authentication
            ("openshift.ac.Check -> (" ++ env.itoa 401 ++ ") access was denied") 401))
        else
          (false, some (.new ("openshift.ac.Check -> unexpected response code from openshift " ++
            env.itoa resp.StatusCode)))) ∧
    ((AuthChecker.Check env ac resource ns client).1 = true →
      (AuthChecker.Check env ac resource ns client).2 = none ∧
      ∃ req resp, client req = .ok resp ∧ resp.StatusCode = 201) := by
  constructor
  · intro user u bytePayload req resp hUser hUrl hMarshal hReq hDo hStatus
    simp only [AuthChecker.Check, hUser, hUrl, hMarshal, hReq, hDo, StatusForbidden,
      StatusCreated, StatusUnauthorized]
    by_cases h403 : resp.StatusCode = 403
    · simp [h403]
    · by_cases h401 : resp.StatusCode = 401
      · simp [h401]
      · simp [h403, h401, hStatus]
  · intro h
    unfold AuthChecker.Check at h ⊢
    simp only [StatusForbidden, StatusCreated, StatusUnauthorized] at h ⊢
    repeat' split at h
    all_goals simp_all
    all_goals exact ⟨_, _, ‹client _ = Except.ok _›, ‹_ = (201 : Int)›⟩

theorem check_status_classification_witness :
    AuthChecker.Check exampleEnv (exampleChecker ⟨"alice", []⟩) "apps" "myproject"
        (statusClient 401) =
      (false, some (.authentication "openshift.ac.Check -> (401) access was denied" 401)) :=
  (check_status_classification exampleEnv (exampleChecker ⟨"alice", []⟩) "apps" "myproject"
    (statusClient 401)).1 ⟨"alice", []⟩ "https://cluster"
    payloadJSON
    { Method := "POST",
      URL := "https://cluster" ++ "/oapi/v1/namespaces/" ++ "myproject" ++
        "/localresourceaccessreviews",
      Header := [],
      Body := payloadJSON }
    { StatusCode := 401, Body := .error (.new "unexpected EOF") }
    rfl rfl rfl (by simp [exampleEnv, String.append_assoc]) rfl (by decide)

/-! ## Theorems: access gate -/

/-- C3 (evaluation at the failing input): the exemption patterns are searched
for anywhere in `method:path`, so a POST request whose path is `/GET:/metrics`
is exempt; with no token it reaches the next handler, no 401 is written and the
user-check is not called. -/
theorem handle_post_with_embedded_pattern (c : Access) (header : List (String × String)) :
    shouldIgnore ("POST" ++ ":" ++ "/GET:/metrics") = true ∧
    c.Handle { Method := "POST", Path := "/GET:/metrics", Header := header } = [.next] := by
  have h : shouldIgnore ("POST" ++ ":" ++ "/GET:/metrics") = true := by decide
  refine ⟨h, ?_⟩
  simp only [Access.Handle]
  rw [if_pos h]

/-- C4: for a request that is not exempt, `Handle` with an empty token writes a
single 401 response and calls neither the user-check nor the next handler; with
a non-empty token it calls the user-check exactly once, with
`(host, token, true)`, then writes a single 401 if the check returned an
AuthenticationError, a single 500 if it returned any other error (the next
handler is not called in either case), and calls the next handler once, writing
no response, exactly when the check returned no error. -/
theorem handle_gated_outcomes (c : Access) (req : Request)
    (hGated : shouldIgnore (req.Method ++ ":" ++ req.Path) = false) :
    (c.tokenRetriever req.Header = "" →
      c.Handle req = [.httpError "no token provided access denied" 401] ∧
      responses (c.Handle req) = [401] ∧ userChecks (c.Handle req) = [] ∧
      nextCalls (c.Handle req) = 0) ∧
    (c.tokenRetriever req.Header ≠ "" →
      userChecks (c.Handle req) = [(c.host, c.tokenRetriever req.Header, true)] ∧
      (∀ err, (c.userCheck c.host (c.tokenRetriever req.Header) true).2 = some err →
        IsAuthenticationError err = true →
        responses (c.Handle req) = [401] ∧ nextCalls (c.Handle req) = 0) ∧
      (∀ err, (c.userCheck c.host (c.tokenRetriever req.Header) true).2 = some err →
        IsAuthenticationError err = false →
        responses (c.Handle req) = [500] ∧ nextCalls (c.Handle req) = 0) ∧
      ((c.userCheck c.host (c.tokenRetriever req.Header) true).2 = none →
        responses (c.Handle req) = [] ∧ nextCalls (c.Handle req) = 1) ∧
      (nextCalls (c.Handle req) ≠ 0 ↔
        (c.userCheck c.host (c.tokenRetriever req.Header) true).2 = none)) := by
  constructor
  · intro hTok
    simp [Access.Handle, hGated, hTok, responses, userChecks, nextCalls]
  · intro hTok
    cases hErr : (c.userCheck c.host (c.tokenRetriever req.Header) true).2 with
    | none =>
      simp [Access.Handle, hGated, hTok, hErr, responses, userChecks, nextCalls]
    | some err =>
      cases hAuth : IsAuthenticationError err <;>
        simp [Access.Handle, hGated, hTok, hErr, hAuth, responses, userChecks, nextCalls,
          StatusUnauthorized, StatusInternalServerError]

theorem handle_gated_outcomes_witness :
    responses (exampleAccess.Handle
      { Method := "POST", Path := "/apps", Header := [("x-forwarded-access-token", "t0")] })
      = [401] ∧
    nextCalls (exampleAccess.Handle
      { Method := "POST", Path := "/apps", Header := [("x-forwarded-access-token", "t0")] })
      = 0 :=
  ((handle_gated_outcomes exampleAccess
    { Method := "POST", Path := "/apps", Header := [("x-forwarded-access-token", "t0")] }
    (by decide)).2 (by decide)).2.1 (.authentication "access was denied" 401) rfl rfl


/-! ## Theorems: maps and the store -/

theorem Entries.get_delete {V : Type} (m : Entries V) (k k' : String) :
    Entries.get (Entries.delete m k) k' = if k' = k then none else Entries.get m k' := by
  induction m with
  | nil => simp [Entries.delete, Entries.get]
  | cons e rest ih =>
    obtain ⟨ek, ev⟩ := e
    simp only [Entries.delete] at ih
    by_cases h : ek = k
    · subst h
      by_cases h' : k' = ek
      · subst h'
        simpa [Entries.delete, Entries.get, List.filter_cons] using ih
      · have h'' : ¬ ek = k' := fun e => h' e.symm
        simpa [Entries.delete, Entries.get, List.filter_cons, h', h''] using ih
    · by_cases h' : k' = k
      · subst h'
        have h'' : ¬ ek = k' := h
        simpa [Entries.delete, Entries.get, List.filter_cons, h, h''] using ih
      · by_cases h3 : ek = k'
        · simp [Entries.delete, Entries.get, List.filter_cons, h, h', h3]
        · simpa [Entries.delete, Entries.get, List.filter_cons, h, h', h3] using ih

theorem Entries.get_set {V : Type} (m : Entries V) (k k' : String) (v : V) :
    Entries.get (Entries.set m k v) k' = if k' = k then some v else Entries.get m k' := by
  by_cases h : k' = k
  · subst h
    simp [Entries.set, Entries.get]
  · have h' : ¬ k = k' := fun e => h e.symm
    simp [Entries.set, Entries.get, h, h', Entries.get_delete]

theorem find?_append_new {α : Type} (p : α → Bool) (l : List α) (x : α)
    (hl : l.find? p = none) (hx : p x = true) : (l ++ [x]).find? p = some x := by
  simp [List.find?_append, hl, hx]

/-! ## Theorems: repository -/

theorem Create_of_valid (mar : MobileAppRepo) (clock : Clock) (app : App) (s : Cluster)
    (md : Entries String) (hv : mar.validator.PreCreate app = none)
    (hmd : app.MetaData = some md) :
    mar.Create clock app s =
      match s.configMaps.find?
        (fun x => decide (x.Name = app.Name ++ "-" ++ toString clock.unix)) with
      | some _ =>
        (.err (.wrap (.alreadyExists (app.Name ++ "-" ++ toString clock.unix))
            "failed to create underlying configmap for mobile app"),
          { app with ID := app.Name ++ "-" ++ toString clock.unix,
                     MetaData := some (Entries.set md "created" clock.formatted) },
          { s with journal := s.journal ++ [.createConfigMap (convertMobileAppToConfigMap
              { app with ID := app.Name ++ "-" ++ toString clock.unix,
                         MetaData := some (Entries.set md "created" clock.formatted) })] })
      | none =>
        (.ok (),
          { app with ID := app.Name ++ "-" ++ toString clock.unix,
                     MetaData := some (Entries.set md "created" clock.formatted) },
          { s with
            journal := s.journal ++ [.createConfigMap (convertMobileAppToConfigMap
              { app with ID := app.Name ++ "-" ++ toString clock.unix,
                         MetaData := some (Entries.set md "created" clock.formatted) })],
            configMaps := s.configMaps ++ [convertMobileAppToConfigMap
              { app with ID := app.Name ++ "-" ++ toString clock.unix,
                         MetaData := some (Entries.set md "created" clock.formatted) }] }) := by
  simp only [MobileAppRepo.Create, hv, hmd, Cluster.createConfigMap]
  cases hfind : s.configMaps.find?
      (fun x => decide (x.Name = app.Name ++ "-" ++ toString clock.unix)) with
  | none => simp [convertMobileAppToConfigMap, hfind]
  | some cm => simp [convertMobileAppToConfigMap, hfind]

theorem Create_ok_inv (mar : MobileAppRepo) (clock : Clock) (app app' : App)
    (s s' : Cluster) (h : mar.Create clock app s = (.ok (), app', s')) :
    ∃ md, mar.validator.PreCreate app = none ∧ app.MetaData = some md ∧
      s.configMaps.find?
        (fun x => decide (x.Name = app.Name ++ "-" ++ toString clock.unix)) = none := by
  cases hv : mar.validator.PreCreate app with
  | some err => simp [MobileAppRepo.Create, hv] at h
  | none =>
    cases hmd : app.MetaData with
    | none => simp [MobileAppRepo.Create, hv, hmd] at h
    | some md =>
      refine ⟨md, rfl, rfl, ?_⟩
      rw [Create_of_valid mar clock app s md hv hmd] at h
      cases hfind : s.configMaps.find?
          (fun x => decide (x.Name = app.Name ++ "-" ++ toString clock.unix)) with
      | none => rfl
      | some cm => simp [hfind] at h

/-- C5, as amended: whenever `Create` succeeds, the app's id is
`name-<epoch seconds>` and `ReadByName` called with that id on the resulting
store succeeds and returns an App with the created app's id, name, clientType
and apiKey. -/
theorem create_then_read_by_id (mar : MobileAppRepo) (clock : Clock) (app app' : App)
    (s s' : Cluster) (h : mar.Create clock app s = (.ok (), app', s')) :
    app'.ID = app.Name ++ "-" ++ toString clock.unix ∧
    ∃ a, mar.ReadByName app'.ID s' = .ok a ∧ a.ID = app'.ID ∧ a.Name = app.Name ∧
      a.ClientType = app.ClientType ∧ a.APIKey = app.APIKey := by
  obtain ⟨md, hv, hmd, hfind⟩ := Create_ok_inv mar clock app app' s s' h
  rw [Create_of_valid mar clock app s md hv hmd, hfind] at h
  simp only [Prod.mk.injEq, true_and] at h
  obtain ⟨happ, hs'⟩ := h
  subst happ
  subst hs'
  refine ⟨rfl, ?_⟩
  simp only [MobileAppRepo.ReadByName, MobileAppRepo.readMobileAppAndConfigMap,
    MobileAppRepo.readUnderlyingConfigMap, Cluster.getConfigMap, App.named]
  rw [find?_append_new _ _ _ hfind (by simp [convertMobileAppToConfigMap])]
  simp [convertConfigMapToMobileApp, convertMobileAppToConfigMap, StringMap.index,
    Entries.get]

theorem create_then_read_by_id_witness :
    ∃ a, exampleRepo.ReadByName "shop-1500000000"
        (exampleRepo.Create (clockAt 1500000000) shopApp emptyCluster).2.2 = .ok a ∧
      a.ID = "shop-1500000000" ∧ a.Name = "shop" ∧ a.ClientType = "ios" ∧
      a.APIKey = "key-1" :=
  (create_then_read_by_id exampleRepo (clockAt 1500000000) shopApp
    (exampleRepo.Create (clockAt 1500000000) shopApp emptyCluster).2.1
    emptyCluster
    (exampleRepo.Create (clockAt 1500000000) shopApp emptyCluster).2.2 (by decide)).2

/-- C5 (counterexample): on the empty store, `Create` of the app named `shop`
succeeds, and `ReadByName` called with the app's name `shop` on the resulting
store fails: the record is stored under the id `shop-1500000000`. -/
theorem create_then_read_by_name_fails :
    (exampleRepo.Create (clockAt 1500000000) shopApp emptyCluster).1 = .ok () ∧
    exampleRepo.ReadByName shopApp.Name
        (exampleRepo.Create (clockAt 1500000000) shopApp emptyCluster).2.2 =
      .err (.wrap (.wrap (.notFound "shop") "failed to read underlying configmap for app shop")
        "failed to retrieve mobile app ") := by
  decide

/-- C6, as amended: for an app the validator accepts, with a non-nil metadata
map, `Create` conflicts exactly on the identity `name-<epoch seconds>` it
derives: when the store already holds a record of that name, `Create` fails
with the store's conflict error (wrapped) and leaves the stored records
unchanged, the rejected write request being all that is added to the journal;
when the store holds no record of that name, whatever app names its records
carry, `Create` succeeds. -/
theorem create_conflict_on_same_identity (mar : MobileAppRepo) (clock : Clock) (app : App)
    (s : Cluster) (md : Entries String)
    (hv : mar.validator.PreCreate app = none) (hmd : app.MetaData = some md) :
    ((∃ cm, cm ∈ s.configMaps ∧ cm.Name = app.Name ++ "-" ++ toString clock.unix) →
      (mar.Create clock app s).1 =
        .err (.wrap (.alreadyExists (app.Name ++ "-" ++ toString clock.unix))
          "failed to create underlying configmap for mobile app") ∧
      (mar.Create clock app s).2.2.configMaps = s.configMaps ∧
      (mar.Create clock app s).2.2.secrets = s.secrets ∧
      ∃ call, (mar.Create clock app s).2.2.journal = s.journal ++ [call]) ∧
    ((∀ cm, cm ∈ s.configMaps → cm.Name ≠ app.Name ++ "-" ++ toString clock.unix) →
      (mar.Create clock app s).1 = .ok ()) := by
  rw [Create_of_valid mar clock app s md hv hmd]
  cases hfind : s.configMaps.find?
      (fun x => decide (x.Name = app.Name ++ "-" ++ toString clock.unix)) with
  | none =>
    refine ⟨?_, fun _ => rfl⟩
    rintro ⟨cm, hcm, hname⟩
    rw [List.find?_eq_none] at hfind
    exact absurd (hfind cm hcm) (by simp [hname])
  | some cm =>
    refine ⟨fun _ => ⟨rfl, rfl, rfl, _, rfl⟩, ?_⟩
    intro hall
    have hmem := List.mem_of_find?_eq_some hfind
    have hname := List.find?_some hfind
    simp only [decide_eq_true_eq] at hname
    exact absurd hname (hall cm hmem)

theorem create_conflict_on_same_identity_witness :
    (exampleRepo.Create (clockAt 100) shopApp shopCluster).1 =
      .err (.wrap (.alreadyExists ("shop" ++ "-" ++ toString (100 : Int)))
        "failed to create underlying configmap for mobile app") ∧
    (exampleRepo.Create (clockAt 100) shopApp shopCluster).2.2.configMaps
      = shopCluster.configMaps :=
  have h := (create_conflict_on_same_identity exampleRepo (clockAt 100) shopApp shopCluster []
    rfl rfl).1 ⟨convertMobileAppToConfigMap
      { shopApp with ID := "shop-100",
                     MetaData := some [("created", "2017-07-14 02:40:00")] },
      by decide, by decide⟩
  ⟨h.1, h.2.1⟩

/-- C6 (counterexample): the store holds one App record, whose name is `shop`
(created at epoch second 100, so stored under `shop-100`); `Create` of an app
named `shop` at epoch second 200 succeeds and the store then holds two records
whose app name is `shop`. -/
theorem create_same_name_later_succeeds :
    shopCluster.configMaps.map (fun cm => (cm.Name, cm.Data.index "name"))
      = [("shop-100", "shop")] ∧
    (exampleRepo.Create (clockAt 200) shopApp shopCluster).1 = .ok () ∧
    (exampleRepo.Create (clockAt 200) shopApp shopCluster).2.2.configMaps.map
        (fun cm => (cm.Name, cm.Data.index "name"))
      = [("shop-100", "shop"), ("shop-200", "shop")] := by
  decide

theorem find?_name_of_some (l : List ConfigMap) (n : String) (cm : ConfigMap)
    (h : l.find? (fun x => decide (x.Name = n)) = some cm) : cm.Name = n := by
  have := List.find?_some h
  simpa using this

theorem find?_map_replace_by {α : Type} (name : α → String) (l : List α) (n : String)
    (w cm : α) (hw : name w = n) (h : l.find? (fun x => decide (name x = n)) = some cm) :
    (l.map (fun x => if name x = n then w else x)).find? (fun x => decide (name x = n))
      = some w := by
  induction l with
  | nil => simp at h
  | cons x rest ih =>
    by_cases hx : name x = n
    · simp [List.find?_cons, hx, hw]
    · simp only [List.find?_cons, hx, decide_False] at h
      simp [List.find?_cons, hx, ih h]

theorem find?_map_replace (l : List ConfigMap) (n : String) (w cm : ConfigMap)
    (hw : w.Name = n) (h : l.find? (fun x => decide (x.Name = n)) = some cm) :
    (l.map (fun x => if x.Name = n then w else x)).find? (fun x => decide (x.Name = n))
      = some w :=
  find?_map_replace_by ConfigMap.Name l n w cm hw h

theorem find?_map_replace_other (l : List ConfigMap) (n n' : String) (w : ConfigMap)
    (hw : w.Name = n) (hn : n' ≠ n) :
    (l.map (fun x => if x.Name = n then w else x)).find? (fun x => decide (x.Name = n'))
      = l.find? (fun x => decide (x.Name = n')) := by
  induction l with
  | nil => simp
  | cons x rest ih =>
    by_cases hx : x.Name = n
    · have h1 : ¬ x.Name = n' := fun e => hn (e.symm.trans hx)
      have h2 : ¬ w.Name = n' := fun e => hn (e.symm.trans hw)
      have h3 : ¬ n = n' := fun e => hn e.symm
      simp [List.find?_cons, hx, h1, h2, h3, ih]
    · by_cases hx' : x.Name = n'
      · have h3 : (if x.Name = n then w else x) = x := by simp [hx]
        rw [List.map_cons, h3, List.find?_cons, List.find?_cons]
        simp only [hx', decide_True]
      · have h3 : (if x.Name = n then w else x) = x := by simp [hx]
        rw [List.map_cons, h3, List.find?_cons, List.find?_cons, ih]

theorem getSecret_name (s : Cluster) (n : String) (sec : Secret)
    (h : s.getSecret n = .ok sec) : sec.Name = n := by
  unfold Cluster.getSecret at h
  cases hfind : s.secrets.find? (fun x => decide (x.Name = n)) with
  | none => simp [hfind] at h
  | some x =>
    simp only [hfind, Result.ok.injEq] at h
    subst h
    have := List.find?_some hfind
    simpa using this

theorem updateSecret_of_get (s : Cluster) (sec sec' : Secret)
    (hget : s.getSecret sec'.Name = .ok sec) :
    (s.updateSecret sec').1 = .ok sec' ∧
    (s.updateSecret sec').2.getSecret sec'.Name = .ok sec' ∧
    (s.updateSecret sec').2.configMaps = s.configMaps ∧
    (s.updateSecret sec').2.journal = s.journal ++ [.updateSecret sec'] := by
  unfold Cluster.getSecret at hget
  cases hfind : s.secrets.find? (fun x => decide (x.Name = sec'.Name)) with
  | none => simp [hfind] at hget
  | some x =>
    refine ⟨?_, ?_, ?_, ?_⟩
    · simp only [Cluster.updateSecret, hfind]
    · simp only [Cluster.updateSecret, hfind, Cluster.getSecret]
      rw [find?_map_replace_by Secret.Name s.secrets sec'.Name sec' x rfl hfind]
    · simp only [Cluster.updateSecret, hfind]
    · simp only [Cluster.updateSecret, hfind]

/-- C7: `Update` is a partial update. When it succeeds, exactly one write
request is issued, for the record `w` that equals the record `cm` read under
`app.Name` except that `data["name"]` and `data["clientType"]` are the app's;
the record's name, labels, annotations and every other data key are those of
`cm`, the store then holds `w` under that name and every other record and
secret is as before. When the read fails or `PreUpdate` rejects, `Update`
returns an error and the store, journal of write requests included, is
unchanged. -/
theorem update_merges_two_fields (mar : MobileAppRepo) (app : App) (s : Cluster) :
    (∀ a s', mar.Update app s = (.ok a, s') →
      ∃ cm d w, s.getConfigMap app.Name = .ok cm ∧ cm.Data = some d ∧
        w = { cm with
          Data := some (Entries.set (Entries.set d "name" app.Name)
            "clientType" app.ClientType) } ∧
        s'.journal = s.journal ++ [.updateConfigMap w] ∧
        s'.getConfigMap app.Name = .ok w ∧
        a = convertConfigMapToMobileApp w ∧
        w.Name = cm.Name ∧ w.Labels = cm.Labels ∧ w.Annotations = cm.Annotations ∧
        w.Data.index "name" = app.Name ∧ w.Data.index "clientType" = app.ClientType ∧
        (∀ k, k ≠ "name" → k ≠ "clientType" → w.Data.index k = cm.Data.index k) ∧
        a.ID = cm.Name ∧ a.Labels = cm.Labels ∧
        a.MetaData = (convertConfigMapToMobileApp cm).MetaData ∧
        a.DisplayName = cm.Data.index "displayName" ∧ a.APIKey = cm.Data.index "apiKey" ∧
        a.Description = cm.Data.index "description" ∧
        (∀ n, n ≠ app.Name → s'.getConfigMap n = s.getConfigMap n) ∧
        s'.secrets = s.secrets) ∧
    ((∃ e, s.getConfigMap app.Name = .err e) →
      ∃ e, mar.Update app s = (.err e, s)) ∧
    (∀ cm e, s.getConfigMap app.Name = .ok cm →
      mar.validator.PreUpdate (convertConfigMapToMobileApp cm) app = some e →
      mar.Update app s = (.err (.wrap e "validation failed before update"), s)) := by
  refine ⟨?_, ?_, ?_⟩
  · intro a s' h
    cases hfind : s.configMaps.find? (fun x => decide (x.Name = app.Name)) with
    | none =>
      simp [MobileAppRepo.Update, MobileAppRepo.readMobileAppAndConfigMap,
        MobileAppRepo.readUnderlyingConfigMap, Cluster.getConfigMap, App.named, hfind] at h
    | some cm =>
      have hname : cm.Name = app.Name := find?_name_of_some _ _ _ hfind
      have hfind' : s.configMaps.find? (fun x => decide (x.Name = cm.Name)) = some cm := by
        rw [hname]; exact hfind
      cases hpre : mar.validator.PreUpdate (convertConfigMapToMobileApp cm) app with
      | some e =>
        simp [MobileAppRepo.Update, MobileAppRepo.readMobileAppAndConfigMap,
          MobileAppRepo.readUnderlyingConfigMap, Cluster.getConfigMap, App.named, hfind,
          hpre] at h
      | none =>
        cases hd : cm.Data with
        | none =>
          simp [MobileAppRepo.Update, MobileAppRepo.readMobileAppAndConfigMap,
            MobileAppRepo.readUnderlyingConfigMap, Cluster.getConfigMap, App.named, hfind,
            hpre, hd] at h
        | some d =>
          simp only [MobileAppRepo.Update, MobileAppRepo.readMobileAppAndConfigMap,
            MobileAppRepo.readUnderlyingConfigMap, Cluster.getConfigMap, App.named, hfind,
            hpre, hd, Cluster.updateConfigMap, hfind', Prod.mk.injEq, Result.ok.injEq] at h
          obtain ⟨ha, hs'⟩ := h
          subst hs'
          subst ha
          refine ⟨cm, d, _, ?_, hd, rfl, rfl, ?_, rfl, rfl, rfl, rfl, ?_, ?_, ?_, rfl, rfl,
            rfl, ?_, ?_, ?_, ?_, rfl⟩
          · simp [Cluster.getConfigMap, hfind]
          · simp only [Cluster.getConfigMap]
            have key := fun w hw => find?_map_replace s.configMaps cm.Name w cm hw hfind'
            rw [← hname, key { cm with
              Data := some (Entries.set (Entries.set d "name" cm.Name)
                "clientType" app.ClientType) } rfl]
          · simp [StringMap.index, Entries.get_set]
          · simp [StringMap.index, Entries.get_set]
          · intro k hk1 hk2
            simp [StringMap.index, Entries.get_set, hk1, hk2, hd]
          · simp [convertConfigMapToMobileApp, StringMap.index, Entries.get_set, hd]
          · simp [convertConfigMapToMobileApp, StringMap.index, Entries.get_set, hd]
          · simp [convertConfigMapToMobileApp, StringMap.index, Entries.get_set, hd]
          · intro n hn
            simp only [Cluster.getConfigMap]
            have hn' : n ≠ cm.Name := by rw [hname]; exact hn
            have key := fun w hw => find?_map_replace_other s.configMaps cm.Name n w hw hn'
            rw [key { cm with
              Data := some (Entries.set (Entries.set d "name" app.Name)
                "clientType" app.ClientType) } rfl]
  · rintro ⟨e, he⟩
    cases hfind : s.configMaps.find? (fun x => decide (x.Name = app.Name)) with
    | none =>
      simp [MobileAppRepo.Update, MobileAppRepo.readMobileAppAndConfigMap,
        MobileAppRepo.readUnderlyingConfigMap, Cluster.getConfigMap, App.named, hfind]
    | some cm => simp [Cluster.getConfigMap, hfind] at he
  · intro cm e hget hpre
    cases hfind : s.configMaps.find? (fun x => decide (x.Name = app.Name)) with
    | none => simp [Cluster.getConfigMap, hfind] at hget
    | some cm' =>
      simp only [Cluster.getConfigMap, hfind, Result.ok.injEq] at hget
      subst hget
      simp [MobileAppRepo.Update, MobileAppRepo.readMobileAppAndConfigMap,
        MobileAppRepo.readUnderlyingConfigMap, Cluster.getConfigMap, App.named, hfind, hpre]

/-! ## Theorems: the reference codec -/

theorem Scan.run_append (st : Scan) (a b : List Char) :
    Scan.run st (a ++ b) = (Scan.run st a).bind (fun st' => Scan.run st' b) := by
  induction a generalizing st with
  | nil => simp [Scan.run]
  | cons c cs ih =>
    simp only [List.cons_append, Scan.run]
    cases st.step c with
    | none => simp
    | some st' => simpa using ih st'

theorem unescape_special (c : Char) (h : c = '"' ∨ c = '\\') : unescape c = some c := by
  rcases h with rfl | rfl <;> decide

theorem Scan.run_cons (st : Scan) (c : Char) (cs : List Char) :
    Scan.run st (c :: cs) = (st.step c).bind (fun st' => Scan.run st' cs) := by
  simp only [Scan.run]
  cases st.step c <;> rfl

theorem jsonEscape_cons_special (c : Char) (cs : List Char) (h : c = '"' ∨ c = '\\') :
    jsonEscape (c :: cs) = '\\' :: c :: jsonEscape cs := by
  simp [jsonEscape, h]

theorem jsonEscape_cons_plain (c : Char) (cs : List Char) (h : ¬ (c = '"' ∨ c = '\\')) :
    jsonEscape (c :: cs) = c :: jsonEscape cs := by
  simp [jsonEscape, h]

theorem Scan.run_key (acc : List (String × String)) (k s : List Char) :
    Scan.run (.key acc k) (jsonEscape s ++ ['"']) = some (.colon acc (k ++ s)) := by
  induction s generalizing k with
  | nil =>
    have h : Scan.step (.key acc k) '"' = some (.colon acc k) := by simp [Scan.step]
    simp [jsonEscape, Scan.run_cons, h, Scan.run]
  | cons c cs ih =>
    by_cases hc : c = '"' ∨ c = '\\'
    · have h1 : Scan.step (.key acc k) '\\' = some (.keyEsc acc k) := by
        simp [Scan.step]
      have h2 : Scan.step (.keyEsc acc k) c = some (.key acc (k ++ [c])) := by
        simp [Scan.step, unescape_special c hc]
      rw [jsonEscape_cons_special c cs hc, List.cons_append, List.cons_append,
        Scan.run_cons, h1, Option.some_bind, Scan.run_cons, h2, Option.some_bind, ih]
      simp
    · have h1 : Scan.step (.key acc k) c = some (.key acc (k ++ [c])) := by
        have h1 : c ≠ '"' := fun e => hc (Or.inl e)
        have h2 : c ≠ '\\' := fun e => hc (Or.inr e)
        simp [Scan.step, h1, h2]
      rw [jsonEscape_cons_plain c cs hc, List.cons_append, Scan.run_cons, h1,
        Option.some_bind, ih]
      simp

theorem Scan.run_str (acc : List (String × String)) (k v s : List Char) :
    Scan.run (.str acc k v) (jsonEscape s ++ ['"'])
      = some (.next (acc ++ [(String.mk k, String.mk (v ++ s))])) := by
  induction s generalizing v with
  | nil =>
    have h : Scan.step (.str acc k v) '"'
        = some (.next (acc ++ [(String.mk k, String.mk v)])) := by simp [Scan.step]
    simp [jsonEscape, Scan.run_cons, h, Scan.run]
  | cons c cs ih =>
    by_cases hc : c = '"' ∨ c = '\\'
    · have h1 : Scan.step (.str acc k v) '\\' = some (.strEsc acc k v) := by
        simp [Scan.step]
      have h2 : Scan.step (.strEsc acc k v) c = some (.str acc k (v ++ [c])) := by
        simp [Scan.step, unescape_special c hc]
      rw [jsonEscape_cons_special c cs hc, List.cons_append, List.cons_append,
        Scan.run_cons, h1, Option.some_bind, Scan.run_cons, h2, Option.some_bind, ih]
      simp
    · have h1 : Scan.step (.str acc k v) c = some (.str acc k (v ++ [c])) := by
        have h1 : c ≠ '"' := fun e => hc (Or.inl e)
        have h2 : c ≠ '\\' := fun e => hc (Or.inr e)
        simp [Scan.step, h1, h2]
      rw [jsonEscape_cons_plain c cs hc, List.cons_append, Scan.run_cons, h1,
        Option.some_bind, ih]
      simp

theorem Scan.run_member (acc : List (String × String)) (k v : String) (rest : List Char) :
    Scan.run (.key acc []) (jsonEscape k.toList ++ '"' :: ':' :: (jsonQuote v ++ rest))
      = Scan.run (.next (acc ++ [(k, v)])) rest := by
  have h : jsonEscape k.toList ++ '"' :: ':' :: (jsonQuote v ++ rest)
      = (jsonEscape k.toList ++ ['"']) ++
        (':' :: '"' :: ((jsonEscape v.toList ++ ['"']) ++ rest)) := by
    simp [jsonQuote]
  have h1 : Scan.step (.colon acc k.toList) ':' = some (.value acc k.toList) := by
    simp [Scan.step]
  have h2 : Scan.step (.value acc k.toList) '"' = some (.str acc k.toList []) := by
    simp [Scan.step]
  rw [h, Scan.run_append, Scan.run_key, Option.some_bind, List.nil_append, Scan.run_cons, h1,
    Option.some_bind, Scan.run_cons, h2, Option.some_bind, Scan.run_append, Scan.run_str,
    Option.some_bind]
  rfl

theorem Scan.run_members (acc l : List (String × String)) (e : String × String) :
    Scan.run (.key acc []) (((jsonMembers (e :: l)).drop 1) ++ ['\x7d'])
      = some (.done (acc ++ e :: l)) := by
  induction l generalizing acc e with
  | nil =>
    obtain ⟨k, v⟩ := e
    have h : (jsonMembers [(k, v)]).drop 1 ++ ['\x7d']
        = jsonEscape k.toList ++ '"' :: ':' :: (jsonQuote v ++ ['\x7d']) := by
      simp [jsonMembers, jsonQuote]
    have h1 : Scan.step (.next (acc ++ [(k, v)])) '\x7d' = some (.done (acc ++ [(k, v)])) := by
      simp [Scan.step]
    rw [h, Scan.run_member, Scan.run_cons, h1]
    rfl
  | cons e' l ih =>
    obtain ⟨k, v⟩ := e
    have h : (jsonMembers ((k, v) :: e' :: l)).drop 1 ++ ['\x7d']
        = jsonEscape k.toList ++ '"' :: ':' :: (jsonQuote v ++
            (',' :: '"' :: ((jsonMembers (e' :: l)).drop 1 ++ ['\x7d']))) := by
      obtain ⟨k', v'⟩ := e'
      cases l <;> simp [jsonMembers, jsonQuote]
    have h1 : Scan.step (.next (acc ++ [(k, v)])) ',' = some (.more (acc ++ [(k, v)])) := by
      simp [Scan.step]
    have h2 : Scan.step (.more (acc ++ [(k, v)])) '"' = some (.key (acc ++ [(k, v)]) []) := by
      simp [Scan.step]
    rw [h, Scan.run_member, Scan.run_cons, h1, Option.some_bind, Scan.run_cons, h2,
      Option.some_bind, ih]
    simp

theorem Scan.run_object (l : List (String × String)) :
    Scan.run .start ('\x7b' :: (jsonMembers l ++ ['\x7d'])) = some (.done l) := by
  have h0 : Scan.step .start '\x7b' = some (.first []) := by simp [Scan.step]
  rw [Scan.run_cons, h0, Option.some_bind]
  cases l with
  | nil =>
    have h1 : Scan.step (.first []) '\x7d' = some (.done []) := by simp [Scan.step]
    simp [jsonMembers, Scan.run_cons, h1, Scan.run]
  | cons e l =>
    have hq : jsonMembers (e :: l) = '"' :: (jsonMembers (e :: l)).drop 1 := by
      obtain ⟨k, v⟩ := e
      cases l with
      | nil => simp [jsonMembers, jsonQuote]
      | cons e' l => obtain ⟨k', v'⟩ := e'; simp [jsonMembers, jsonQuote]
    have h1 : Scan.step (.first []) '"' = some (.key [] []) := by simp [Scan.step]
    rw [hq, List.cons_append, Scan.run_cons, h1, Option.some_bind, Scan.run_members]
    simp

theorem Entries.get_eq_none {V : Type} (l : Entries V) (k : String)
    (h : ∀ e ∈ l, e.1 ≠ k) : Entries.get l k = none := by
  induction l with
  | nil => rfl
  | cons e rest ih =>
    obtain ⟨ek, ev⟩ := e
    have h1 : ¬ ek = k := h (ek, ev) (List.mem_cons_self _ _)
    simp only [Entries.get, h1, if_false]
    exact ih (fun e he => h e (List.mem_cons_of_mem _ he))

theorem Entries.get_eq_some_iff {V : Type} (l : Entries V) (k : String) (v : V)
    (hl : l.Pairwise (fun a b => a.1 ≠ b.1)) :
    Entries.get l k = some v ↔ (k, v) ∈ l := by
  induction l with
  | nil => simp [Entries.get]
  | cons e rest ih =>
    obtain ⟨ek, ev⟩ := e
    rw [List.pairwise_cons] at hl
    by_cases h : ek = k
    · subst h
      simp only [Entries.get, if_true, Option.some.injEq, List.mem_cons, Prod.mk.injEq,
        true_and]
      constructor
      · intro h; exact Or.inl h.symm
      · rintro (h | h)
        · exact h.symm
        · exact absurd rfl (hl.1 (ek, v) h)
    · have h' : ¬ k = ek := fun e => h e.symm
      simp only [Entries.get, h, if_false, List.mem_cons, Prod.mk.injEq, h', false_and,
        false_or]
      exact ih hl.2

theorem Entries.get_perm {V : Type} (l l' : Entries V) (k : String) (hp : l.Perm l')
    (hl : l.Pairwise (fun a b => a.1 ≠ b.1)) : Entries.get l k = Entries.get l' k := by
  have hl' : l'.Pairwise (fun a b => a.1 ≠ b.1) :=
    (hp.pairwise_iff (fun h => Ne.symm h)).mp hl
  apply Option.ext
  intro v
  simp only [Option.mem_def]
  rw [Entries.get_eq_some_iff l k v hl, Entries.get_eq_some_iff l' k v hl']
  exact hp.mem_iff

theorem Entries.dedup_distinct {V : Type} (m : Entries V) :
    (Entries.dedup m).Pairwise (fun a b => a.1 ≠ b.1) := by
  induction m with
  | nil => simp [Entries.dedup]
  | cons e rest ih =>
    simp only [Entries.dedup, List.pairwise_cons]
    constructor
    · intro a ha
      simp only [Entries.delete, List.mem_filter, decide_eq_true_eq] at ha
      exact fun h => ha.2 h.symm
    · exact ih.sublist (List.filter_sublist _)

theorem Entries.get_dedup {V : Type} (m : Entries V) (k : String) :
    Entries.get (Entries.dedup m) k = Entries.get m k := by
  induction m with
  | nil => rfl
  | cons e rest ih =>
    obtain ⟨ek, ev⟩ := e
    by_cases h : ek = k
    · simp [Entries.dedup, Entries.get, h]
    · have h' : ¬ k = ek := fun e => h e.symm
      simp [Entries.dedup, Entries.get, h, h', Entries.get_delete, ih]

theorem Entries.canonical_distinct (m : Entries String) :
    (Entries.canonical m).Pairwise (fun a b => a.1 ≠ b.1) :=
  ((List.perm_insertionSort _ _).pairwise_iff (fun h => Ne.symm h)).mpr
    (Entries.dedup_distinct m)

theorem Entries.get_canonical (m : Entries String) (k : String) :
    Entries.get (Entries.canonical m) k = Entries.get m k := by
  unfold Entries.canonical
  rw [Entries.get_perm _ _ k (List.perm_insertionSort _ _) (Entries.canonical_distinct m),
    Entries.get_dedup]

theorem Entries.get_foldl_set {V : Type} (l acc : Entries V) (k : String)
    (hl : l.Pairwise (fun a b => a.1 ≠ b.1)) :
    Entries.get (l.foldl (fun m e => Entries.set m e.1 e.2) acc) k =
      match Entries.get l k with
      | some v => some v
      | none => Entries.get acc k := by
  induction l generalizing acc with
  | nil => rfl
  | cons e rest ih =>
    obtain ⟨ek, ev⟩ := e
    rw [List.pairwise_cons] at hl
    rw [List.foldl_cons, ih _ hl.2]
    by_cases h : ek = k
    · subst h
      have hnone : Entries.get rest ek = none :=
        Entries.get_eq_none rest ek (fun e he => Ne.symm (hl.1 e he))
      simp [hnone, Entries.get, Entries.get_set]
    · have h' : ¬ k = ek := fun e => h e.symm
      simp [Entries.get, h, h', Entries.get_set, Entries.get_delete]

theorem refMarshal_ne_null (m : Entries String) : refMarshal m ≠ "null" := by
  intro h
  have := congrArg String.data h
  simp [refMarshal] at this

/-- The reference codec satisfies what the embedding assumes of `encoding/json`. -/
theorem refJSON_lawful : refJSON.Lawful where
  roundTrip := by
    intro m
    refine ⟨refMarshal m, rfl, (Entries.canonical m).foldl
      (fun m e => Entries.set m e.1 e.2) [], ?_, ?_⟩
    · have hrun : Scan.run .start (refMarshal m).toList = some (.done (Entries.canonical m)) :=
        Scan.run_object (Entries.canonical m)
      simp only [refJSON, refUnmarshal, refMarshal_ne_null m, if_false, hrun]
    · intro k
      rw [Entries.get_foldl_set _ _ _ (Entries.canonical_distinct m), Entries.get_canonical]
      cases Entries.get m k <;> rfl
  emptyObject := ⟨[], by decide, fun _ => rfl⟩

/-! ## Theorems: registry -/

theorem AddAPIKeyToMap_ok (mar : MobileAppRepo) (app : App) (s : Cluster) (sec : Secret)
    (m : Entries String) (b : String)
    (hget : s.getSecret apiKeyMapName = .ok sec)
    (hdec : mar.json.unmarshalBytes (Secret.index sec.withDefaults "apiKeys") = .ok (some m))
    (hmar : mar.json.Marshal (some (Entries.set m app.ID app.APIKey)) = .ok b) :
    (mar.AddAPIKeyToMap app s).1 = .ok () ∧
    (mar.AddAPIKeyToMap app s).2.getSecret apiKeyMapName =
      .ok { sec with Data := some (Entries.set sec.withDefaults "apiKeys" (some b)) } ∧
    (mar.AddAPIKeyToMap app s).2.configMaps = s.configMaps ∧
    (mar.AddAPIKeyToMap app s).2.journal = s.journal ++ [.updateSecret
      { sec with Data := some (Entries.set sec.withDefaults "apiKeys" (some b)) }] := by
  have hname : sec.Name = apiKeyMapName := getSecret_name s _ sec hget
  obtain ⟨sec1, hsec1⟩ : ∃ x : Secret,
      x = { sec with Data := some (Entries.set sec.withDefaults "apiKeys" (some b)) } :=
    ⟨_, rfl⟩
  have hn1 : sec1.Name = apiKeyMapName := by rw [hsec1]; exact hname
  have hget' : s.getSecret sec1.Name = .ok sec := by rw [hn1]; exact hget
  obtain ⟨h1, h2, h3, h4⟩ := updateSecret_of_get s sec sec1 hget'
  rw [hn1] at h2
  have hfun : mar.AddAPIKeyToMap app s =
      match s.updateSecret sec1 with
      | (.err err, s') =>
        (.err (.wrap err "Adding API Key to map, could not update map"), s')
      | (.panic msg, s') => (.panic msg, s')
      | (.ok _, s') => (.ok (), s') := by
    rw [hsec1]
    simp only [Secret.withDefaults] at hdec
    simp only [MobileAppRepo.AddAPIKeyToMap, hget, hdec, hmar, Secret.withDefaults]
  rw [hfun, ← hsec1]
  generalize s.updateSecret sec1 = r at h1 h2 h3 h4 ⊢
  obtain ⟨r1, r2⟩ := r
  simp only at h1
  subst h1
  exact ⟨rfl, h2, h3, h4⟩

theorem RemoveAPIKeyFromMap_ok (mar : MobileAppRepo) (appID : String) (s : Cluster)
    (sec : Secret) (m : Entries String) (b : String)
    (hget : s.getSecret apiKeyMapName = .ok sec)
    (hdec : mar.json.unmarshalBytes (Secret.index sec.withDefaults "apiKeys") = .ok (some m))
    (hmar : mar.json.Marshal (some (Entries.delete m appID)) = .ok b) :
    (mar.RemoveAPIKeyFromMap appID s).1 = .ok () ∧
    (mar.RemoveAPIKeyFromMap appID s).2.getSecret apiKeyMapName =
      .ok { sec with Data := some (Entries.set sec.withDefaults "apiKeys" (some b)) } ∧
    (mar.RemoveAPIKeyFromMap appID s).2.configMaps = s.configMaps ∧
    (mar.RemoveAPIKeyFromMap appID s).2.journal = s.journal ++ [.updateSecret
      { sec with Data := some (Entries.set sec.withDefaults "apiKeys" (some b)) }] := by
  have hname : sec.Name = apiKeyMapName := getSecret_name s _ sec hget
  obtain ⟨sec1, hsec1⟩ : ∃ x : Secret,
      x = { sec with Data := some (Entries.set sec.withDefaults "apiKeys" (some b)) } :=
    ⟨_, rfl⟩
  have hn1 : sec1.Name = apiKeyMapName := by rw [hsec1]; exact hname
  have hget' : s.getSecret sec1.Name = .ok sec := by rw [hn1]; exact hget
  obtain ⟨h1, h2, h3, h4⟩ := updateSecret_of_get s sec sec1 hget'
  rw [hn1] at h2
  have hfun : mar.RemoveAPIKeyFromMap appID s =
      match s.updateSecret sec1 with
      | (.err err, s') =>
        (.err (.wrap err "Removing API Key from map, could not update map"), s')
      | (.panic msg, s') => (.panic msg, s')
      | (.ok _, s') => (.ok (), s') := by
    rw [hsec1]
    simp only [Secret.withDefaults] at hdec
    simp only [MobileAppRepo.RemoveAPIKeyFromMap, hget, hdec, StringMap.delete, hmar,
      Secret.withDefaults]
  rw [hfun, ← hsec1]
  generalize s.updateSecret sec1 = r at h1 h2 h3 h4 ⊢
  obtain ⟨r1, r2⟩ := r
  simp only at h1
  subst h1
  exact ⟨rfl, h2, h3, h4⟩

theorem Secret.index_set (d : Entries ByteSlice) (k k' : String) (v : ByteSlice) :
    Secret.index (Entries.set d k v) k' = if k' = k then v else Secret.index d k' := by
  simp only [Secret.index, Entries.get_set]
  split <;> simp

theorem withDefaults_of_payload (sec : Secret) (p : String) (h : sec.payload = some p) :
    Secret.index sec.withDefaults "apiKeys" = some p := by
  cases hd : sec.Data with
  | none => simp [Secret.payload, hd] at h
  | some d =>
    simp only [Secret.payload, hd] at h
    simp [Secret.withDefaults, hd, h]

theorem withDefaults_of_missing (sec : Secret) (h : sec.payload = none) :
    Secret.index sec.withDefaults "apiKeys" = emptyAPIKeyMap := by
  cases hd : sec.Data with
  | none =>
    have h0 : Secret.index ([] : Entries ByteSlice) "apiKeys" = none := rfl
    simp [Secret.withDefaults, hd, h0, Secret.index_set]
  | some d =>
    simp only [Secret.payload, hd] at h
    simp [Secret.withDefaults, hd, h, Secret.index_set]

theorem payload_after_write (sec : Secret) (d : Entries ByteSlice) (b : String) :
    ({ sec with Data := some (Entries.set d "apiKeys" (some b)) } : Secret).payload
      = some b := by
  simp [Secret.payload, Secret.index_set]

theorem add_decodes (mar : MobileAppRepo) (hlaw : mar.json.Lawful) (app : App) (s : Cluster)
    (sec : Secret) (m : Entries String)
    (hget : s.getSecret apiKeyMapName = .ok sec)
    (hdec : mar.json.unmarshalBytes (Secret.index sec.withDefaults "apiKeys") = .ok (some m)) :
    (mar.AddAPIKeyToMap app s).1 = .ok () ∧
    (mar.AddAPIKeyToMap app s).2.configMaps = s.configMaps ∧
    ∃ m1, (mar.AddAPIKeyToMap app s).2.RegistryDecodes mar.json m1 ∧
      ∀ k, Entries.get m1 k = if k = app.ID then some app.APIKey else Entries.get m k := by
  obtain ⟨b, hb, m1, hm1, hget1⟩ := hlaw.roundTrip (Entries.set m app.ID app.APIKey)
  obtain ⟨h1, h2, h3, -⟩ := AddAPIKeyToMap_ok mar app s sec m b hget hdec hb
  refine ⟨h1, h3, m1, ⟨_, b, h2, payload_after_write _ _ _, hm1⟩, ?_⟩
  intro k
  rw [hget1, Entries.get_set]

theorem remove_decodes (mar : MobileAppRepo) (hlaw : mar.json.Lawful) (appID : String)
    (s : Cluster) (sec : Secret) (m : Entries String)
    (hget : s.getSecret apiKeyMapName = .ok sec)
    (hdec : mar.json.unmarshalBytes (Secret.index sec.withDefaults "apiKeys") = .ok (some m)) :
    (mar.RemoveAPIKeyFromMap appID s).1 = .ok () ∧
    (mar.RemoveAPIKeyFromMap appID s).2.configMaps = s.configMaps ∧
    ∃ m1, (mar.RemoveAPIKeyFromMap appID s).2.RegistryDecodes mar.json m1 ∧
      ∀ k, Entries.get m1 k = if k = appID then none else Entries.get m k := by
  obtain ⟨b, hb, m1, hm1, hget1⟩ := hlaw.roundTrip (Entries.delete m appID)
  obtain ⟨h1, h2, h3, -⟩ := RemoveAPIKeyFromMap_ok mar appID s sec m b hget hdec hb
  refine ⟨h1, h3, m1, ⟨_, b, h2, payload_after_write _ _ _, hm1⟩, ?_⟩
  intro k
  rw [hget1, Entries.get_delete]

theorem decodes_unmarshalBytes (json : JSONCodec) (sec : Secret) (p : String)
    (m : Entries String) (hp : sec.payload = some p) (hm : json.Unmarshal p = .ok (some m)) :
    json.unmarshalBytes (Secret.index sec.withDefaults "apiKeys") = .ok (some m) := by
  rw [withDefaults_of_payload sec p hp]
  exact hm

/-- C8, as amended: when the registry record's payload decodes to a non-nil map
with entries `m`, `AddAPIKeyToMap` for an app succeeds and leaves a payload
that decodes to a map binding the app's id to its key; `RemoveAPIKeyFromMap`
for that id on the resulting store succeeds and leaves a payload that decodes
to a map without the id in which every other key has the value it has in `m`;
and `RemoveAPIKeyFromMap` for an id that is not a key of `m` succeeds and
leaves a payload that decodes to a map with the same value as `m` at every
key. -/
theorem add_then_remove_entry (mar : MobileAppRepo) (hlaw : mar.json.Lawful) (s : Cluster)
    (m : Entries String) (app : App) (hm : s.RegistryDecodes mar.json m) :
    (mar.AddAPIKeyToMap app s).1 = .ok () ∧
    (∃ m1, (mar.AddAPIKeyToMap app s).2.RegistryDecodes mar.json m1 ∧
      Entries.get m1 app.ID = some app.APIKey ∧
      ∀ k, k ≠ app.ID → Entries.get m1 k = Entries.get m k) ∧
    (mar.RemoveAPIKeyFromMap app.ID (mar.AddAPIKeyToMap app s).2).1 = .ok () ∧
    (∃ m2, (mar.RemoveAPIKeyFromMap app.ID (mar.AddAPIKeyToMap app s).2).2.RegistryDecodes
        mar.json m2 ∧
      Entries.get m2 app.ID = none ∧
      ∀ k, k ≠ app.ID → Entries.get m2 k = Entries.get m k) ∧
    (∀ appID, Entries.get m appID = none →
      (mar.RemoveAPIKeyFromMap appID s).1 = .ok () ∧
      ∃ m', (mar.RemoveAPIKeyFromMap appID s).2.RegistryDecodes mar.json m' ∧
        ∀ k, Entries.get m' k = Entries.get m k) := by
  obtain ⟨sec, p, hget, hp, hdec⟩ := hm
  have hdec0 := decodes_unmarshalBytes mar.json sec p m hp hdec
  obtain ⟨ha, -, m1, hreg1, hm1⟩ := add_decodes mar hlaw app s sec m hget hdec0
  obtain ⟨sec1, p1, hget1, hp1, hdec1⟩ := hreg1
  obtain ⟨hr, -, m2, hreg2, hm2⟩ :=
    remove_decodes mar hlaw app.ID _ sec1 m1 hget1
      (decodes_unmarshalBytes mar.json sec1 p1 m1 hp1 hdec1)
  refine ⟨ha, ⟨m1, ⟨sec1, p1, hget1, hp1, hdec1⟩, ?_, ?_⟩, hr, ⟨m2, hreg2, ?_, ?_⟩, ?_⟩
  · rw [hm1]; simp
  · intro k hk
    rw [hm1]; simp [hk]
  · rw [hm2]; simp
  · intro k hk
    rw [hm2, hm1]; simp [hk]
  · intro appID hnot
    obtain ⟨hr', -, m', hreg', hm'⟩ := remove_decodes mar hlaw appID s sec m hget hdec0
    refine ⟨hr', m', hreg', ?_⟩
    intro k
    rw [hm']
    by_cases hk : k = appID
    · subst hk; simp [hnot]
    · simp [hk]

theorem add_then_remove_entry_witness :
    (exampleRepo.AddAPIKeyToMap keyedApp otherKeyCluster).1 = .ok () ∧
    (∃ m1, (exampleRepo.AddAPIKeyToMap keyedApp otherKeyCluster).2.RegistryDecodes
        exampleRepo.json m1 ∧
      Entries.get m1 keyedApp.ID = some keyedApp.APIKey ∧
      ∀ k, k ≠ keyedApp.ID → Entries.get m1 k = Entries.get [("other-1", "k0")] k) ∧
    (exampleRepo.RemoveAPIKeyFromMap keyedApp.ID
      (exampleRepo.AddAPIKeyToMap keyedApp otherKeyCluster).2).1 = .ok () ∧
    (∃ m2, (exampleRepo.RemoveAPIKeyFromMap keyedApp.ID
        (exampleRepo.AddAPIKeyToMap keyedApp otherKeyCluster).2).2.RegistryDecodes
        exampleRepo.json m2 ∧
      Entries.get m2 keyedApp.ID = none ∧
      ∀ k, k ≠ keyedApp.ID → Entries.get m2 k = Entries.get [("other-1", "k0")] k) ∧
    (∀ appID, Entries.get [("other-1", "k0")] appID = none →
      (exampleRepo.RemoveAPIKeyFromMap appID otherKeyCluster).1 = .ok () ∧
      ∃ m', (exampleRepo.RemoveAPIKeyFromMap appID otherKeyCluster).2.RegistryDecodes
          exampleRepo.json m' ∧
        ∀ k, Entries.get m' k = Entries.get [("other-1", "k0")] k) :=
  add_then_remove_entry exampleRepo refJSON_lawful otherKeyCluster [("other-1", "k0")] keyedApp
    ⟨{ Name := apiKeyMapName, Data := some [("apiKeys", some otherKeyPayload)] },
     otherKeyPayload, by decide, by decide, by decide⟩

/-- C8 (counterexample): the registry record's payload is the JSON value `null`.
It decodes without error, to the nil map, and `AddAPIKeyToMap` then panics on
the assignment `apiKeys[app.ID] = app.APIKey`: it does not succeed and nothing
is written. -/
theorem add_panics_on_null_payload :
    exampleRepo.json.Unmarshal "null" = .ok none ∧
    exampleRepo.AddAPIKeyToMap keyedApp nullCluster =
      (.panic "assignment to entry in nil map", nullCluster) := by
  decide

/-- C9, as amended: when the registry record exists and its raw `apiKeys`
payload is missing (no data map, no `apiKeys` key, or a nil value), both
registry methods treat it as the empty map: `AddAPIKeyToMap` succeeds and
leaves a payload that decodes to exactly the one binding `app.ID -> app.APIKey`,
and `RemoveAPIKeyFromMap` succeeds and leaves a payload that decodes to the
empty map. A payload that is present, of any length, is decoded as it is: when
`json.Unmarshal` rejects it, both methods return the wrapped decoding error and
leave the store, journal of write requests included, unchanged. -/
theorem missing_payload_is_empty_map (mar : MobileAppRepo) (hlaw : mar.json.Lawful)
    (s : Cluster) (sec : Secret) (app : App)
    (hget : s.getSecret apiKeyMapName = .ok sec) :
    (sec.payload = none →
      ((mar.AddAPIKeyToMap app s).1 = .ok () ∧
        ∃ m1, (mar.AddAPIKeyToMap app s).2.RegistryDecodes mar.json m1 ∧
          ∀ k, Entries.get m1 k = if k = app.ID then some app.APIKey else none) ∧
      (∀ appID, (mar.RemoveAPIKeyFromMap appID s).1 = .ok () ∧
        ∃ m2, (mar.RemoveAPIKeyFromMap appID s).2.RegistryDecodes mar.json m2 ∧
          ∀ k, Entries.get m2 k = none)) ∧
    (∀ p e, sec.payload = some p → mar.json.Unmarshal p = .error e →
      mar.AddAPIKeyToMap app s =
        (.err (.wrap e "Adding API Key to map, could not unmarshal key map"), s) ∧
      ∀ appID, mar.RemoveAPIKeyFromMap appID s =
        (.err (.wrap e "Removing API Key from map, could not unmarshal key map"), s)) := by
  constructor
  · intro hmiss
    obtain ⟨m0, hm0, hempty⟩ := hlaw.emptyObject
    have hdec : mar.json.unmarshalBytes (Secret.index sec.withDefaults "apiKeys")
        = .ok (some m0) := by
      rw [withDefaults_of_missing sec hmiss]
      exact hm0
    constructor
    · obtain ⟨h1, -, m1, hreg, hm1⟩ := add_decodes mar hlaw app s sec m0 hget hdec
      refine ⟨h1, m1, hreg, ?_⟩
      intro k
      rw [hm1, hempty]
    · intro appID
      obtain ⟨h1, -, m2, hreg, hm2⟩ := remove_decodes mar hlaw appID s sec m0 hget hdec
      refine ⟨h1, m2, hreg, ?_⟩
      intro k
      rw [hm2, hempty]
      simp
  · intro p e hp he
    have hdec : mar.json.unmarshalBytes (Secret.index sec.withDefaults "apiKeys")
        = .error e := by
      rw [withDefaults_of_payload sec p hp]
      exact he
    simp only [Secret.withDefaults] at hdec
    constructor
    · simp only [MobileAppRepo.AddAPIKeyToMap, hget, hdec]
    · intro appID
      simp only [MobileAppRepo.RemoveAPIKeyFromMap, hget, hdec]

theorem missing_payload_is_empty_map_witness :
    (exampleRepo.AddAPIKeyToMap keyedApp nilDataCluster).1 = .ok () ∧
    ∃ m1, (exampleRepo.AddAPIKeyToMap keyedApp nilDataCluster).2.RegistryDecodes
        exampleRepo.json m1 ∧
      ∀ k, Entries.get m1 k = if k = keyedApp.ID then some keyedApp.APIKey else none :=
  ((missing_payload_is_empty_map exampleRepo refJSON_lawful nilDataCluster
    { Name := apiKeyMapName, Data := none } keyedApp (by decide)).1 (by decide)).1

/-- C9 (counterexample): the registry record carries a zero-length, non-nil
`apiKeys` payload; it is not `nil`, so it is not replaced by `{}`, and both
registry methods fail on decoding it, leaving the store as it was. -/
theorem empty_payload_is_an_error :
    exampleRepo.AddAPIKeyToMap keyedApp emptyPayloadCluster =
      (.err (.wrap (.new "unexpected end of JSON input")
        "Adding API Key to map, could not unmarshal key map"), emptyPayloadCluster) ∧
    exampleRepo.RemoveAPIKeyFromMap keyedApp.ID emptyPayloadCluster =
      (.err (.wrap (.new "unexpected end of JSON input")
        "Removing API Key from map, could not unmarshal key map"), emptyPayloadCluster) := by
  decide

theorem update_merges_two_fields_witness :
    ∃ cm w, shopCluster.getConfigMap shopUpdate.Name = .ok cm ∧
      (exampleRepo.Update shopUpdate shopCluster).2.getConfigMap shopUpdate.Name = .ok w ∧
      w.Labels = cm.Labels ∧ w.Annotations = cm.Annotations ∧
      w.Data.index "clientType" = "android" ∧
      w.Data.index "apiKey" = cm.Data.index "apiKey" := by
  obtain ⟨cm, d, w, hget, -, -, -, hget', -, -, hl, han, -, hct, hother, -⟩ :=
    (update_merges_two_fields exampleRepo shopUpdate shopCluster).1
      (convertConfigMapToMobileApp
        { Name := "shop-100"
          Labels := some [("group", "mobileapp"), ("name", "shop")]
          Annotations := some [("icon", ""), ("created", "2017-07-14 02:40:00")]
          Data := some [("clientType", "android"), ("name", "shop-100"),
            ("displayName", "Shop"), ("apiKey", "key-1"), ("description", "")] })
      (exampleRepo.Update shopUpdate shopCluster).2 (by decide)
  exact ⟨cm, w, hget, hget', hl, han, hct, hother "apiKey" (by decide) (by decide)⟩

/-! ## Theorems: lifecycle service -/

theorem digitChar_isDigit (d : Nat) (h : d < 10) : (Nat.digitChar d).isDigit = true := by
  interval_cases d <;> decide

theorem toDigitsCore_isDigit (fuel n : Nat) (ds : List Char)
    (hds : ∀ c ∈ ds, c.isDigit = true) :
    ∀ c ∈ Nat.toDigitsCore 10 fuel n ds, c.isDigit = true := by
  induction fuel generalizing n ds with
  | zero => simpa [Nat.toDigitsCore] using hds
  | succ fuel ih =>
    have hd : (Nat.digitChar (n % 10)).isDigit = true :=
      digitChar_isDigit _ (Nat.mod_lt _ (by decide))
    have hds' : ∀ c ∈ Nat.digitChar (n % 10) :: ds, c.isDigit = true := by
      intro c hc
      rcases List.mem_cons.mp hc with rfl | hc
      · exact hd
      · exact hds c hc
    simp only [Nat.toDigitsCore]
    split
    · exact hds'
    · exact ih _ _ hds'

theorem toDigitsCore_ne_nil (fuel n : Nat) (ds : List Char) (h : fuel ≠ 0 ∨ ds ≠ []) :
    Nat.toDigitsCore 10 fuel n ds ≠ [] := by
  induction fuel generalizing n ds with
  | zero =>
    rcases h with h | h
    · exact absurd rfl h
    · simpa [Nat.toDigitsCore] using h
  | succ fuel ih =>
    simp only [Nat.toDigitsCore]
    split
    · simp
    · exact ih _ _ (Or.inr (by simp))

theorem toString_nonneg (z : Int) (hz : 0 ≤ z) :
    ∃ digits : List Char, digits ≠ [] ∧ (∀ c ∈ digits, c.isDigit = true) ∧
      toString z = String.mk digits := by
  obtain ⟨n, rfl⟩ := Int.eq_ofNat_of_zero_le hz
  refine ⟨Nat.toDigits 10 n, ?_, ?_, ?_⟩
  · exact toDigitsCore_ne_nil _ _ _ (Or.inl (by simp))
  · exact toDigitsCore_isDigit _ _ _ (by simp)
  · rfl

theorem AddAPIKeyToMap_ok_inv (mar : MobileAppRepo) (app : App) (s : Cluster)
    (h : (mar.AddAPIKeyToMap app s).1 = .ok ()) :
    ∃ sec m b, s.getSecret apiKeyMapName = .ok sec ∧
      mar.json.unmarshalBytes (Secret.index sec.withDefaults "apiKeys") = .ok (some m) ∧
      mar.json.Marshal (some (Entries.set m app.ID app.APIKey)) = .ok b := by
  cases hget : s.getSecret apiKeyMapName with
  | err e => simp [MobileAppRepo.AddAPIKeyToMap, hget] at h
  | panic msg => simp [MobileAppRepo.AddAPIKeyToMap, hget] at h
  | ok sec =>
    cases hdec : mar.json.unmarshalBytes (Secret.index sec.withDefaults "apiKeys") with
    | error e =>
      simp only [Secret.withDefaults] at hdec
      simp [MobileAppRepo.AddAPIKeyToMap, hget, hdec] at h
    | ok om =>
      cases om with
      | none =>
        simp only [Secret.withDefaults] at hdec
        simp [MobileAppRepo.AddAPIKeyToMap, hget, hdec] at h
      | some m =>
        cases hmar : mar.json.Marshal (some (Entries.set m app.ID app.APIKey)) with
        | error e =>
          simp only [Secret.withDefaults] at hdec
          simp [MobileAppRepo.AddAPIKeyToMap, hget, hdec, hmar] at h
        | ok b => exact ⟨sec, m, b, rfl, hdec, hmar⟩

theorem serviceCreate_ok_inv (mar : MobileAppRepo) (uid : String) (clock : Clock)
    (app app' : App) (s s' : Cluster)
    (h : Service.Create mar uid clock app s = (.ok (), app', s')) :
    ∃ md s1, app.MetaData = some md ∧
      mar.Create clock
        { app with
          APIKey := uid,
          MetaData := some (match iconFor app.ClientType with
            | none => md
            | some icon => Entries.set md "icon" icon) } s = (.ok (), app', s1) ∧
      mar.AddAPIKeyToMap app' s1 = (.ok (), s') := by
  unfold Service.Create at h
  cases hicon : iconFor app.ClientType with
  | none =>
    simp only [hicon] at h
    cases hc : mar.Create clock { app with APIKey := uid } s with
    | mk r1 r =>
      obtain ⟨a1, s1⟩ := r
      rw [hc] at h
      cases r1 with
      | err e => simp at h
      | panic msg => simp at h
      | ok u =>
        obtain ⟨md, -, hmd, -⟩ := Create_ok_inv mar clock _ a1 s s1 hc
        simp only at hmd
        cases ha : mar.AddAPIKeyToMap a1 s1 with
        | mk r2 s2 =>
          simp only [ha] at h
          cases r2 with
          | err e => simp at h
          | panic msg => simp at h
          | ok u2 =>
            simp only [Prod.mk.injEq, true_and] at h
            obtain ⟨rfl, rfl⟩ := h
            refine ⟨md, s1, hmd, ?_, ha⟩
            rw [← hc, ← hmd]
  | some icon =>
    cases hmd : app.MetaData with
    | none => simp [hicon, hmd] at h
    | some md =>
      simp only [hicon, hmd] at h
      cases hc : mar.Create clock
        { app with APIKey := uid, MetaData := some (Entries.set md "icon" icon) } s with
      | mk r1 r =>
        obtain ⟨a1, s1⟩ := r
        rw [hc] at h
        cases r1 with
        | err e => simp at h
        | panic msg => simp at h
        | ok u =>
          cases ha : mar.AddAPIKeyToMap a1 s1 with
          | mk r2 s2 =>
            simp only [ha] at h
            cases r2 with
            | err e => simp at h
            | panic msg => simp at h
            | ok u2 =>
              simp only [Prod.mk.injEq, true_and] at h
              obtain ⟨rfl, rfl⟩ := h
              exact ⟨md, s1, rfl, hc, ha⟩

theorem iconFor_other (ct : String) (h1 : ct ≠ AndroidApp) (h2 : ct ≠ IOSApp)
    (h3 : ct ≠ CordovaApp) : iconFor ct = none := by
  simp [iconFor, h1, h2, h3]

/-- C10, as amended: after a successful `Service.Create`, `metadata["icon"]` is
`fa-android`, `fa-apple` or `icon-cordova` for the client types android, ios and
cordova, and for every other client type it is what the caller supplied (unset
when the caller supplied none); the app's id is `name-<epoch seconds>`, which
for a non-negative epoch is the name, a dash and a non-empty run of decimal
digits; the app's apiKey is the generated key; the record persisted under the
id stores that key; and the registry payload decodes to a map that binds the
id to that same key. -/
theorem service_create_postcondition (mar : MobileAppRepo) (hlaw : mar.json.Lawful)
    (uid : String) (clock : Clock) (app app' : App) (s s' : Cluster)
    (h : Service.Create mar uid clock app s = (.ok (), app', s')) :
    (∃ md md', app.MetaData = some md ∧ app'.MetaData = some md' ∧
      (app.ClientType = AndroidApp → Entries.get md' "icon" = some "fa-android") ∧
      (app.ClientType = IOSApp → Entries.get md' "icon" = some "fa-apple") ∧
      (app.ClientType = CordovaApp → Entries.get md' "icon" = some "icon-cordova") ∧
      (app.ClientType ≠ AndroidApp → app.ClientType ≠ IOSApp →
        app.ClientType ≠ CordovaApp → Entries.get md' "icon" = Entries.get md "icon")) ∧
    app'.ID = app.Name ++ "-" ++ toString clock.unix ∧
    (0 ≤ clock.unix → ∃ digits : List Char, digits ≠ [] ∧
      (∀ c ∈ digits, c.isDigit = true) ∧ app'.ID = app.Name ++ "-" ++ String.mk digits) ∧
    app'.APIKey = uid ∧
    (∃ cm, s'.getConfigMap app'.ID = .ok cm ∧ cm.Data.index "apiKey" = uid ∧
      cm.Data.index "name" = app.Name ∧ cm.Data.index "clientType" = app.ClientType ∧
      cm.Annotations.index "icon" = app'.MetaData.index "icon") ∧
    (∃ m, s'.RegistryDecodes mar.json m ∧ Entries.get m app'.ID = some uid) := by
  obtain ⟨md, s1, hmd, hc, ha⟩ := serviceCreate_ok_inv mar uid clock app app' s s' h
  obtain ⟨md1, hv, hmd1, hfind⟩ := Create_ok_inv mar clock _ app' s s1 hc
  simp only [Option.some.injEq] at hmd1
  subst hmd1
  rw [Create_of_valid mar clock _ s _ hv rfl] at hc
  simp only [hfind, Prod.mk.injEq, true_and] at hc
  obtain ⟨happ, hs1⟩ := hc
  have hadd : (mar.AddAPIKeyToMap app' s1).1 = .ok () := by rw [ha]
  obtain ⟨sec, m0, b, hget, hdec, -⟩ := AddAPIKeyToMap_ok_inv mar app' s1 hadd
  obtain ⟨-, hcms, m1, hreg, hm1⟩ := add_decodes mar hlaw app' s1 sec m0 hget hdec
  rw [ha] at hcms hreg
  simp only at hcms hreg
  have hID : app'.ID = app.Name ++ "-" ++ toString clock.unix := by rw [← happ]
  have hKey : app'.APIKey = uid := by rw [← happ]
  have hName : app'.Name = app.Name := by rw [← happ]
  have hCT : app'.ClientType = app.ClientType := by rw [← happ]
  have hMD : app'.MetaData = some (Entries.set
      (match iconFor app.ClientType with
        | none => md
        | some icon => Entries.set md "icon" icon) "created" clock.formatted) := by
    rw [← happ]
  have hcm : s'.getConfigMap app'.ID = .ok (convertMobileAppToConfigMap app') := by
    simp only [Cluster.getConfigMap, hcms, ← hs1]
    rw [hID, happ]
    simp only at hfind
    rw [find?_append_new _ _ _ hfind (by simp [convertMobileAppToConfigMap, hID])]
  refine ⟨⟨md, _, hmd, hMD, ?_, ?_, ?_, ?_⟩, hID, ?_, hKey, ?_, ⟨m1, hreg, ?_⟩⟩
  · intro hct
    simp [hct, iconFor, Entries.get_set]
  · intro hct
    simp [hct, iconFor, Entries.get_set, IOSApp, AndroidApp]
  · intro hct
    simp [hct, iconFor, Entries.get_set, IOSApp, AndroidApp, CordovaApp]
  · intro h1 h2 h3
    simp [iconFor_other _ h1 h2 h3, Entries.get_set]
  · intro hz
    obtain ⟨digits, hne, hdig, hstr⟩ := toString_nonneg clock.unix hz
    exact ⟨digits, hne, hdig, by rw [hID, hstr]⟩
  · refine ⟨convertMobileAppToConfigMap app', hcm, ?_, ?_, ?_, ?_⟩
    · simp [convertMobileAppToConfigMap, StringMap.index, Entries.get, hKey]
    · simp [convertMobileAppToConfigMap, StringMap.index, Entries.get, hName]
    · simp [convertMobileAppToConfigMap, StringMap.index, Entries.get, hCT]
    · simp [convertMobileAppToConfigMap, StringMap.index, Entries.get]
  · rw [hm1]
    simp [hKey]

theorem service_create_postcondition_witness :
    ∃ m, (Service.Create exampleRepo "uuid-1" (clockAt 1500000000) shopApp
        registryCluster).2.2.RegistryDecodes exampleRepo.json m ∧
      Entries.get m "shop-1500000000" = some "uuid-1" :=
  (service_create_postcondition exampleRepo refJSON_lawful "uuid-1" (clockAt 1500000000)
    shopApp
    (Service.Create exampleRepo "uuid-1" (clockAt 1500000000) shopApp registryCluster).2.1
    registryCluster
    (Service.Create exampleRepo "uuid-1" (clockAt 1500000000) shopApp registryCluster).2.2
    (by decide)).2.2.2.2.2

/-- C10 (counterexample): an app of client type `web`, outside the icon table,
is submitted with `metadata["icon"] = "fa-star"`; `Service.Create` succeeds and
the icon is still set, to `fa-star`, on the resulting app and on the persisted
record. -/
theorem service_create_keeps_supplied_icon :
    (Service.Create exampleRepo "uuid-1" (clockAt 1500000000) webApp registryCluster).1
      = .ok () ∧
    (Service.Create exampleRepo "uuid-1" (clockAt 1500000000) webApp
      registryCluster).2.1.MetaData.index "icon" = "fa-star" ∧
    (match exampleRepo.ReadByName "portal-1500000000"
        (Service.Create exampleRepo "uuid-1" (clockAt 1500000000) webApp
          registryCluster).2.2 with
      | .ok a => a.MetaData.index "icon"
      | _ => "") = "fa-star" := by
  decide

theorem Create_frame (mar : MobileAppRepo) (clock : Clock) (app : App) (s : Cluster) :
    (mar.Create clock app s).2.2.secrets = s.secrets ∧
    ((mar.Create clock app s).2.2.journal = s.journal ∨
      ∃ cm, (mar.Create clock app s).2.2.journal = s.journal ++ [.createConfigMap cm]) := by
  cases hv : mar.validator.PreCreate app with
  | some e => simp [MobileAppRepo.Create, hv]
  | none =>
    cases hmd : app.MetaData with
    | none => simp [MobileAppRepo.Create, hv, hmd]
    | some md =>
      rw [Create_of_valid mar clock app s md hv hmd]
      cases s.configMaps.find?
          (fun x => decide (x.Name = app.Name ++ "-" ++ toString clock.unix)) with
      | none => exact ⟨rfl, Or.inr ⟨_, rfl⟩⟩
      | some cm => exact ⟨rfl, Or.inr ⟨_, rfl⟩⟩

theorem getSecret_congr (s1 s2 : Cluster) (n : String) (h : s2.secrets = s1.secrets) :
    s2.getSecret n = s1.getSecret n := by
  simp only [Cluster.getSecret, h]

theorem getConfigMap_congr (s1 s2 : Cluster) (n : String) (h : s2.configMaps = s1.configMaps) :
    s2.getConfigMap n = s1.getConfigMap n := by
  simp only [Cluster.getConfigMap, h]

theorem AddAPIKeyToMap_frame (mar : MobileAppRepo) (app : App) (s : Cluster) :
    (mar.AddAPIKeyToMap app s).2.configMaps = s.configMaps ∧
    ((mar.AddAPIKeyToMap app s).1 ≠ .ok () → (mar.AddAPIKeyToMap app s).2.secrets = s.secrets) := by
  cases hget : s.getSecret apiKeyMapName with
  | err e => simp [MobileAppRepo.AddAPIKeyToMap, hget]
  | panic msg => simp [MobileAppRepo.AddAPIKeyToMap, hget]
  | ok sec =>
    cases hdec : mar.json.unmarshalBytes (Secret.index sec.withDefaults "apiKeys") with
    | error e =>
      simp only [Secret.withDefaults] at hdec
      simp [MobileAppRepo.AddAPIKeyToMap, hget, hdec]
    | ok om =>
      cases om with
      | none =>
        simp only [Secret.withDefaults] at hdec
        simp [MobileAppRepo.AddAPIKeyToMap, hget, hdec]
      | some m =>
        cases hmar : mar.json.Marshal (some (Entries.set m app.ID app.APIKey)) with
        | error e =>
          simp only [Secret.withDefaults] at hdec
          simp [MobileAppRepo.AddAPIKeyToMap, hget, hdec, hmar]
        | ok b =>
          obtain ⟨h1, -, h3, -⟩ := AddAPIKeyToMap_ok mar app s sec m b hget hdec hmar
          exact ⟨h3, fun hne => absurd h1 hne⟩

theorem AddAPIKeyToMapOn_accepting (mar : MobileAppRepo) (app : App) (s : Cluster) :
    mar.AddAPIKeyToMapOn none app s = mar.AddAPIKeyToMap app s := rfl

theorem serviceCreateOn_accepting (mar : MobileAppRepo) (uid : String) (clock : Clock)
    (app : App) (s : Cluster) :
    Service.CreateOn mar none uid clock app s = Service.Create mar uid clock app s := rfl

theorem AddAPIKeyToMapOn_frame (mar : MobileAppRepo) (refusal : Option GoError) (app : App)
    (s : Cluster) :
    (mar.AddAPIKeyToMapOn refusal app s).2.configMaps = s.configMaps ∧
    ((mar.AddAPIKeyToMapOn refusal app s).1 ≠ .ok () →
      (mar.AddAPIKeyToMapOn refusal app s).2.secrets = s.secrets) := by
  cases refusal with
  | none =>
    rw [AddAPIKeyToMapOn_accepting]
    exact AddAPIKeyToMap_frame mar app s
  | some err =>
    cases hget : s.getSecret apiKeyMapName with
    | err e => simp [MobileAppRepo.AddAPIKeyToMapOn, hget]
    | panic msg => simp [MobileAppRepo.AddAPIKeyToMapOn, hget]
    | ok sec =>
      cases hdec : mar.json.unmarshalBytes (Secret.index sec.withDefaults "apiKeys") with
      | error e =>
        simp only [Secret.withDefaults] at hdec
        simp [MobileAppRepo.AddAPIKeyToMapOn, hget, hdec]
      | ok om =>
        cases om with
        | none =>
          simp only [Secret.withDefaults] at hdec
          simp [MobileAppRepo.AddAPIKeyToMapOn, hget, hdec]
        | some m =>
          simp only [Secret.withDefaults] at hdec
          cases hmar : mar.json.Marshal (some (Entries.set m app.ID app.APIKey)) with
          | error e => simp [MobileAppRepo.AddAPIKeyToMapOn, hget, hdec, hmar]
          | ok b =>
            simp [MobileAppRepo.AddAPIKeyToMapOn, hget, hdec, hmar, Cluster.updateSecretOn]

theorem AddAPIKeyToMapOn_refused (mar : MobileAppRepo) (err : GoError) (app : App)
    (s : Cluster) (sec : Secret) (m : Entries String) (b : String)
    (hget : s.getSecret apiKeyMapName = .ok sec)
    (hdec : mar.json.unmarshalBytes (Secret.index sec.withDefaults "apiKeys") = .ok (some m))
    (hmar : mar.json.Marshal (some (Entries.set m app.ID app.APIKey)) = .ok b) :
    mar.AddAPIKeyToMapOn (some err) app s =
      (.err (.wrap err "Adding API Key to map, could not update map"),
        { s with journal := s.journal ++ [.updateSecret
          { sec with Data := some (Entries.set sec.withDefaults "apiKeys" (some b)) }] }) := by
  simp only [Secret.withDefaults] at hdec
  simp only [MobileAppRepo.AddAPIKeyToMapOn, hget, hdec, hmar, Cluster.updateSecretOn,
    Secret.withDefaults]

theorem serviceCreateOn_eq (mar : MobileAppRepo) (refusal : Option GoError) (uid : String)
    (clock : Clock) (app app1 : App) (s : Cluster)
    (hprep : Service.prepare uid app = some app1) :
    Service.CreateOn mar refusal uid clock app s =
      match mar.Create clock app1 s with
      | (.err err, a1, s1) =>
        (.err (.wrap err "mobile app create: Attempted to create app via app repo"), a1, s1)
      | (.panic msg, a1, s1) => (.panic msg, a1, s1)
      | (.ok _, a1, s1) =>
        match mar.AddAPIKeyToMapOn refusal a1 s1 with
        | (.err err, s2) => (.err (.wrap err "app create, could not add api key"), a1, s2)
        | (.panic msg, s2) => (.panic msg, a1, s2)
        | (.ok _, s2) => (.ok (), a1, s2) := by
  unfold Service.CreateOn
  unfold Service.prepare at hprep
  simp only at hprep ⊢
  rw [hprep]

theorem serviceCreateOn_unprepared (mar : MobileAppRepo) (refusal : Option GoError)
    (uid : String) (clock : Clock) (app : App) (s : Cluster)
    (hprep : Service.prepare uid app = none) :
    (Service.CreateOn mar refusal uid clock app s).1 = .panic "assignment to entry in nil map" := by
  unfold Service.CreateOn
  unfold Service.prepare at hprep
  simp only at hprep ⊢
  rw [hprep]

/-- C11, as amended: `Service.Create` runs its two steps in order and does not
compensate, whether or not the store accepts the registry write. When the
repository `Create` step returns an error, `Service.Create` returns that error
wrapped and stops in the state `Create` left: the secrets, the registry among
them, are as before, and the only write request that can have been issued is
the rejected creation of the record. When `Create` succeeds and
`AddAPIKeyToMap` returns an error (a refused write of the registry record is
such an error), `Service.Create` returns that error wrapped, the record written
by `Create` is still held by the store under the app's id, and the registry is
exactly as it was before the call: it decodes to the same maps, so it has no
entry for the new id if it had none before. `Service.Create` returns nil only
when both steps returned nil. -/
theorem service_create_no_compensation (mar : MobileAppRepo) (refusal : Option GoError)
    (uid : String) (clock : Clock) (app : App) (s : Cluster) :
    (∀ app1 e a1 s1, Service.prepare uid app = some app1 →
      mar.Create clock app1 s = (.err e, a1, s1) →
      Service.CreateOn mar refusal uid clock app s =
        (.err (.wrap e "mobile app create: Attempted to create app via app repo"), a1, s1) ∧
      s1.secrets = s.secrets ∧
      (s1.journal = s.journal ∨ ∃ cm, s1.journal = s.journal ++ [.createConfigMap cm])) ∧
    (∀ app1 e a1 s1 s2, Service.prepare uid app = some app1 →
      mar.Create clock app1 s = (.ok (), a1, s1) →
      mar.AddAPIKeyToMapOn refusal a1 s1 = (.err e, s2) →
      Service.CreateOn mar refusal uid clock app s =
        (.err (.wrap e "app create, could not add api key"), a1, s2) ∧
      s2.getConfigMap a1.ID = .ok (convertMobileAppToConfigMap a1) ∧
      s2.secrets = s.secrets ∧
      (∀ m, s2.RegistryDecodes mar.json m ↔ s.RegistryDecodes mar.json m) ∧
      ((∀ m, s.RegistryDecodes mar.json m → Entries.get m a1.ID = none) →
        ∀ m, s2.RegistryDecodes mar.json m → Entries.get m a1.ID = none)) ∧
    (∀ app1 err a1 s1 sec m b, Service.prepare uid app = some app1 →
      mar.Create clock app1 s = (.ok (), a1, s1) →
      refusal = some err →
      s1.getSecret apiKeyMapName = .ok sec →
      mar.json.unmarshalBytes (Secret.index sec.withDefaults "apiKeys") = .ok (some m) →
      mar.json.Marshal (some (Entries.set m a1.ID a1.APIKey)) = .ok b →
      (Service.CreateOn mar refusal uid clock app s).1 =
        .err (.wrap (.wrap err "Adding API Key to map, could not update map")
          "app create, could not add api key")) ∧
    (∀ app' s', Service.CreateOn mar refusal uid clock app s = (.ok (), app', s') →
      ∃ app1 s1, Service.prepare uid app = some app1 ∧
        mar.Create clock app1 s = (.ok (), app', s1) ∧
        mar.AddAPIKeyToMapOn refusal app' s1 = (.ok (), s')) := by
  refine ⟨?_, ?_, ?_, ?_⟩
  · intro app1 e a1 s1 hprep hc
    obtain ⟨hsec, hj⟩ := Create_frame mar clock app1 s
    rw [hc] at hsec hj
    refine ⟨?_, hsec, hj⟩
    rw [serviceCreateOn_eq mar refusal uid clock app app1 s hprep, hc]
  · intro app1 e a1 s1 s2 hprep hc ha
    obtain ⟨hsec1, -⟩ := Create_frame mar clock app1 s
    rw [hc] at hsec1
    simp only at hsec1
    obtain ⟨hcms, hsec2⟩ := AddAPIKeyToMapOn_frame mar refusal a1 s1
    rw [ha] at hcms hsec2
    simp only at hcms hsec2
    have hsec2' : s2.secrets = s1.secrets := hsec2 (by simp)
    have hsec : s2.secrets = s.secrets := hsec2'.trans hsec1
    obtain ⟨md, hv, hmd, hfind⟩ := Create_ok_inv mar clock app1 a1 s s1 hc
    have hc' := hc
    rw [Create_of_valid mar clock app1 s md hv hmd, hfind] at hc'
    simp only [Prod.mk.injEq, true_and] at hc'
    obtain ⟨ha1, hs1⟩ := hc'
    have hID : a1.ID = app1.Name ++ "-" ++ toString clock.unix := by rw [← ha1]
    have hiff : ∀ m, s2.RegistryDecodes mar.json m ↔ s.RegistryDecodes mar.json m := by
      intro m
      simp only [Cluster.RegistryDecodes, getSecret_congr s s2 _ hsec]
    refine ⟨?_, ?_, hsec, hiff, ?_⟩
    · rw [serviceCreateOn_eq mar refusal uid clock app app1 s hprep, hc]
      simp only [ha]
    · rw [getConfigMap_congr s1 s2 _ hcms]
      simp only [Cluster.getConfigMap, ← hs1]
      rw [hID, ha1]
      rw [find?_append_new _ _ _ hfind (by simp [convertMobileAppToConfigMap, hID])]
    · intro hfresh m hreg
      exact hfresh m ((hiff m).mp hreg)
  · intro app1 err a1 s1 sec m b hprep hc href hget hdec hmar
    subst href
    rw [serviceCreateOn_eq mar (some err) uid clock app app1 s hprep, hc]
    simp only [AddAPIKeyToMapOn_refused mar err a1 s1 sec m b hget hdec hmar]
  · intro app' s' h
    cases hprep : Service.prepare uid app with
    | none =>
      have hp := serviceCreateOn_unprepared mar refusal uid clock app s hprep
      rw [h] at hp
      simp at hp
    | some app1 =>
      rw [serviceCreateOn_eq mar refusal uid clock app app1 s hprep] at h
      cases hc : mar.Create clock app1 s with
      | mk r1 r =>
        obtain ⟨a1, s1⟩ := r
        rw [hc] at h
        cases r1 with
        | err e => simp at h
        | panic msg => simp at h
        | ok u =>
          cases ha : mar.AddAPIKeyToMapOn refusal a1 s1 with
          | mk r2 s2 =>
            simp only [ha] at h
            cases r2 with
            | err e => simp at h
            | panic msg => simp at h
            | ok u2 =>
              simp only [Prod.mk.injEq, true_and] at h
              obtain ⟨rfl, rfl⟩ := h
              exact ⟨app1, s1, rfl, hc, ha⟩

theorem service_create_no_compensation_witness :
    Service.CreateOn exampleRepo (some refusedWrite) "uuid-1" (clockAt 100) shopApp
        registryCluster =
      (.err (.wrap (.wrap refusedWrite "Adding API Key to map, could not update map")
          "app create, could not add api key"),
        (exampleRepo.Create (clockAt 100) preparedShop registryCluster).2.1,
        (exampleRepo.AddAPIKeyToMapOn (some refusedWrite)
          (exampleRepo.Create (clockAt 100) preparedShop registryCluster).2.1
          (exampleRepo.Create (clockAt 100) preparedShop registryCluster).2.2).2) ∧
    (exampleRepo.AddAPIKeyToMapOn (some refusedWrite)
        (exampleRepo.Create (clockAt 100) preparedShop registryCluster).2.1
        (exampleRepo.Create (clockAt 100) preparedShop registryCluster).2.2).2.getConfigMap
        "shop-100" =
      .ok (convertMobileAppToConfigMap
        (exampleRepo.Create (clockAt 100) preparedShop registryCluster).2.1) ∧
    (exampleRepo.AddAPIKeyToMapOn (some refusedWrite)
        (exampleRepo.Create (clockAt 100) preparedShop registryCluster).2.1
        (exampleRepo.Create (clockAt 100) preparedShop registryCluster).2.2).2.secrets =
      registryCluster.secrets :=
  have h := (service_create_no_compensation exampleRepo (some refusedWrite) "uuid-1"
    (clockAt 100) shopApp registryCluster).2.1
    preparedShop
    (.wrap refusedWrite "Adding API Key to map, could not update map")
    (exampleRepo.Create (clockAt 100) preparedShop registryCluster).2.1
    (exampleRepo.Create (clockAt 100) preparedShop registryCluster).2.2
    (exampleRepo.AddAPIKeyToMapOn (some refusedWrite)
      (exampleRepo.Create (clockAt 100) preparedShop registryCluster).2.1
      (exampleRepo.Create (clockAt 100) preparedShop registryCluster).2.2).2
    (by decide) (by decide) (by decide)
  ⟨h.1, h.2.1, h.2.2.1⟩

/-- C11 (counterexample): the registry holds a key for `shop-100` and the store
holds no record of that name (the record was deleted with `DeleteByName`). An
app named `shop` is created at epoch second 100 and the store refuses the
registry write: `Create` succeeds, `AddAPIKeyToMap` fails, `Service.Create`
returns the error, the new record `shop-100` is persisted, and the registry
has an entry for the new id, the old key `uuid-1`. -/
theorem service_create_leaves_stale_entry :
    staleCluster.getConfigMap "shop-100" = .err (.notFound "shop-100") ∧
    (exampleRepo.Create (clockAt 100)
      { shopApp with APIKey := "uuid-2", MetaData := some [("icon", "fa-apple")] }
      staleCluster).1 = .ok () ∧
    (Service.CreateOn exampleRepo (some refusedWrite) "uuid-2" (clockAt 100) shopApp
      staleCluster).1 =
      .err (.wrap (.wrap refusedWrite "Adding API Key to map, could not update map")
        "app create, could not add api key") ∧
    (Service.CreateOn exampleRepo (some refusedWrite) "uuid-2" (clockAt 100) shopApp
      staleCluster).2.1.ID = "shop-100" ∧
    (match (Service.CreateOn exampleRepo (some refusedWrite) "uuid-2" (clockAt 100) shopApp
        staleCluster).2.2.getConfigMap "shop-100" with
      | .ok cm => cm.Data.index "apiKey"
      | _ => "") = "uuid-2" ∧
    ∃ m, (Service.CreateOn exampleRepo (some refusedWrite) "uuid-2" (clockAt 100) shopApp
        staleCluster).2.2.RegistryDecodes exampleRepo.json m ∧
      Entries.get m "shop-100" = some "uuid-1" := by
  refine ⟨by decide, by decide, by decide, by decide, by decide,
    [("shop-100", "uuid-1")],
    ⟨{ Name := apiKeyMapName
       Data := some [("apiKeys", some "\x7b\"shop-100\":\"uuid-1\"\x7d"),
                     ("name", some apiKeyMapName),
                     ("type", some apiKeyMapName),
                     ("displayName", some apiKeyMapDisplayName)] },
     "\x7b\"shop-100\":\"uuid-1\"\x7d", by decide, by decide, by decide⟩, by decide⟩

/-! ## Theorems: builders -/

/-- C12 (evaluation at the failing input): every reconfiguration method of
`ClientBuilder` returns a builder whose in-cluster flag is false, whatever the
flag of the receiver, so a builder made for use inside the cluster builds an
outside-cluster client after `WithToken`, also on the path
`MobileAppRepoBuilder.Build` takes; and `MobileAppRepoBuilder.WithToken` returns
a builder without the service-account token, so `UseDefaultSAToken` after
`WithToken` carries the empty token where `UseDefaultSAToken` on the receiver
carries `sa-token`. -/
theorem builders_drop_unnamed_fields :
    (∀ (cb : ClientBuilder) (t h ns : String),
      (cb.WithToken t).inCluster = false ∧ (cb.WithNamespace ns).inCluster = false ∧
      (cb.WithHost h).inCluster = false ∧ (cb.WithHostAndNamespace h ns).inCluster = false) ∧
    inClusterBuilder.inCluster = true ∧
    inClusterBuilder.BuildClient exampleK8s =
      .ok { config := { Host := "https://kubernetes.default.svc", BearerToken := "",
                        Insecure := false } } ∧
    (inClusterBuilder.WithToken "t0").BuildClient exampleK8s =
      .ok { config := { Host := "https://cluster", BearerToken := "t0", Insecure := true } } ∧
    saBuilder.buildClient exampleK8s =
      .ok { config := { Host := "https://cluster", BearerToken := "", Insecure := true } } ∧
    (∀ (marb : MobileAppRepoBuilder) (t : String),
      (marb.WithToken t).saToken = "" ∧ ((marb.WithToken t).UseDefaultSAToken).token = "") ∧
    saBuilder.UseDefaultSAToken.token = "sa-token" ∧
    (saBuilder.WithToken "t0").UseDefaultSAToken.token = "" := by
  refine ⟨fun _ _ _ _ => ⟨rfl, rfl, rfl, rfl⟩, ?_, ?_, ?_, ?_, fun _ _ => ⟨rfl, rfl⟩, ?_, ?_⟩ <;>
    decide

end MobileCore
